import Mathlib

/-!
Shallow embedding of the WILDS repository's configuration resolver
(`examples/configs/utils.py`) and of the DeepCORAL objective
(`examples/algorithms/deepCORAL.py`), together with theorems checking the
natural-language specification against the code.

Python values stored in a config namespace or a defaults template are
modelled by the inductive type `Val`; a Python dict (and the `vars(config)`
view of an argparse namespace) is modelled as an association list with
string keys, mutated by first-occurrence replacement so that insertion
order is preserved exactly as a Python dict preserves it.  Values inside a
nested kwargs dict are scalars (`SVal`), matching the registry's default
templates; `populate_config` treats kwargs sub-values opaquely, so this
loses no behaviour of the code.  Python floats are modelled as rationals,
and Python exceptions with `Except`.
-/

set_option autoImplicit false

namespace Wilds

/-- A scalar Python value as it occurs inside a kwargs dict:
`None`, a bool, an int, a float, or a string. -/
inductive SVal where
  | sNone : SVal
  | sBool : Bool → SVal
  | sInt : Int → SVal
  | sRat : Rat → SVal
  | sStr : String → SVal
  deriving DecidableEq, Repr

/-- A Python value as it occurs at top level in WILDS configs and default
templates: a scalar, a list of strings (e.g. `groupby_fields`), or a nested
kwargs dict. -/
inductive Val where
  | vNone : Val
  | vBool : Bool → Val
  | vInt : Int → Val
  | vRat : Rat → Val
  | vStr : String → Val
  | vStrList : List String → Val
  | vDict : List (String × SVal) → Val
  deriving DecidableEq, Repr

/-- A config namespace, as seen through `vars(config)`: an ordered
string-keyed mapping. -/
abbrev Config := List (String × Val)

/-- A defaults template (a Python dict literal from the registry modules). -/
abbrev Template := List (String × Val)

/-- First-occurrence lookup, i.e. Python `d[key]` / `key in d`. -/
def lookup {α : Type} : List (String × α) → String → Option α
  | [], _ => none
  | (k, v) :: rest, key => if k = key then some v else lookup rest key

/-- Python `d[key] = val`: replace the first occurrence in place, or append
a new entry at the end (Python dicts preserve insertion order). -/
def setKey {α : Type} : List (String × α) → String → α → List (String × α)
  | [], key, val => [(key, val)]
  | (k, v) :: rest, key, val =>
      if k = key then (k, val) :: rest else (k, v) :: setKey rest key val

/-- Errors raised by the config resolver, one constructor per `raise` /
failing `assert` / implicit exception site in `examples/configs/utils.py`. -/
inductive CfgErr where
  /-- Python `KeyError` (missing dict key, e.g. `d_config[key]` at line 130
  when `config` lacks a kwargs key, or a registry lookup miss). -/
  | keyError : CfgErr
  /-- Python `TypeError` (e.g. `kwargs_key not in d_config[key]` when
  `d_config[key]` is `None` or another non-dict). -/
  | typeError : CfgErr
  /-- Python `AttributeError` from `config.f` when the namespace lacks `f`. -/
  | attributeError : String → CfgErr
  /-- A failing `assert`, carrying its message. -/
  | assertionError : String → CfgErr
  /-- `ValueError(f"Argument {key} must be set to {val}")` (line 126):
  the conflicting key and the template value. -/
  | conflict : String → Val → CfgErr
  /-- `ValueError(f"Argument {key}[{kwargs_key}] must be set to {val}")`
  (line 133): the conflicting key, sub-key, and template sub-value. -/
  | conflictKw : String → String → SVal → CfgErr
  /-- `ValueError` from the `from_source_domain` validation (lines 18 and 26):
  the offending field name and its value. -/
  | groupsValueError : String → Val → CfgErr
  /-- `ValueError` from the DANN learning-rate validation (line 32). -/
  | dannLrValueError : CfgErr
  deriving DecidableEq, Repr

/-- Numeric view of a scalar, mirroring that Python's `==` identifies
`True`, `1` and `1.0`. -/
def SVal.toNum : SVal → Option Rat
  | .sBool b => some (if b then 1 else 0)
  | .sInt n => some n
  | .sRat q => some q
  | _ => none

/-- Python `==` on kwargs scalars (numeric cross-type equality included). -/
def pyEqS (a b : SVal) : Bool :=
  match a.toNum, b.toNum with
  | some x, some y => x == y
  | _, _ =>
    match a, b with
    | .sNone, .sNone => true
    | .sStr s, .sStr t => s == t
    | _, _ => false

/-- Numeric view of a top-level value, as for `SVal.toNum`. -/
def Val.toNum : Val → Option Rat
  | .vBool b => some (if b then 1 else 0)
  | .vInt n => some n
  | .vRat q => some q
  | _ => none

/-- Python `==` on dicts: same keys with `==`-equal values, order ignored. -/
def pyEqDict (d e : List (String × SVal)) : Bool :=
  (d.length == e.length) &&
    d.all (fun kv =>
      match lookup e kv.1 with
      | some w => pyEqS kv.2 w
      | none => false)

/-- Python `==` on top-level config values. -/
def pyEqV (a b : Val) : Bool :=
  match a.toNum, b.toNum with
  | some x, some y => x == y
  | _, _ =>
    match a, b with
    | .vNone, .vNone => true
    | .vStr s, .vStr t => s == t
    | .vStrList l, .vStrList m => l == m
    | .vDict d, .vDict e => pyEqDict d e
    | _, _ => false

/-- `isinstance(val, dict)`: view a value as a kwargs dict when it is one. -/
def Val.asDict? : Val → Option (List (String × SVal))
  | .vDict d => some d
  | _ => none

/-- The inner loop of `populate_config` (lines 129-133): merge the sub-keys
of a template kwargs dict `sub` into the config's kwargs dict, filling a
sub-key only when it is absent or `None`, and raising in strict mode when an
already-set sub-value differs (Python `!=`) from the template's. -/
def mergeKwargs (force : Bool) (key : String) :
    List (String × SVal) → List (String × SVal) → Except CfgErr (List (String × SVal))
  | d, [] => .ok d
  | d, (kk, kv) :: sub =>
      match lookup d kk with
      | none => mergeKwargs force key (setKey d kk kv) sub
      | some w =>
          if w = .sNone then mergeKwargs force key (setKey d kk kv) sub
          else if !pyEqS w kv && force then .error (.conflictKw key kk kv)
          else mergeKwargs force key d sub

/-- One iteration of the `for key, val in template.items()` loop of
`populate_config` (lines 121-133). -/
def popOne (force : Bool) (c : Config) (kv : String × Val) : Except CfgErr Config :=
  match kv.2.asDict? with
  | some sub =>
      -- config[key] expected to be a kwargs dict; `d_config[key]` raises
      -- KeyError when the key is absent, and the `in` test on it raises
      -- TypeError when it is not a dict
      match lookup c kv.1 with
      | none => .error .keyError
      | some cv =>
          match cv.asDict? with
          | some d =>
              match mergeKwargs force kv.1 d sub with
              | .ok d2 => .ok (setKey c kv.1 (.vDict d2))
              | .error e => .error e
          | none => .error .typeError
  | none =>
      -- config[key] expected to be a non-index-able
      match lookup c kv.1 with
      | none => .ok (setKey c kv.1 kv.2)
      | some w =>
          if w = .vNone then .ok (setKey c kv.1 kv.2)
          else if !pyEqV w kv.2 && force then .error (.conflict kv.1 kv.2)
          else .ok c

/-- `populate_config(config, template, force_compatibility)` (lines 109-134):
fold `popOne` over the template's items in order, propagating the first
raised exception. -/
def populate_config (c : Config) : Template → (force : Bool) → Except CfgErr Config
  | [], _ => .ok c
  | kv :: t, force =>
      match popOne force c kv with
      | .ok c2 => populate_config c2 t force
      | .error e => .error e

/-- Exception-propagating sequencing (Python statements run in order; a
raised exception aborts the rest). -/
def eseq {α β : Type} : Except CfgErr α → (α → Except CfgErr β) → Except CfgErr β
  | .ok a, f => f a
  | .error e, _ => .error e

/-- Python attribute read `config.f`: `AttributeError` when absent. -/
def getattrE (c : Config) (f : String) : Except CfgErr Val :=
  match lookup c f with
  | some v => .ok v
  | none => .error (.attributeError f)

/-- Python truthiness of a config value (`if config.model:` etc.). -/
def truthy : Val → Bool
  | .vNone => false
  | .vBool b => b
  | .vInt n => n != 0
  | .vRat q => q != 0
  | .vStr s => s != ""
  | .vStrList l => !l.isEmpty
  | .vDict d => !d.isEmpty

/-- The default-preset registries imported at the top of
`examples/configs/utils.py` from the external registry modules
(`datasets.py`, `algorithm.py`, `data_loader.py`, `model.py`,
`scheduler.py`); they are data, passed in explicitly here.  A `none`
result models a missing dict key (Python `KeyError` on subscription,
`False` on an `in` test). -/
structure Tables where
  datasetDefaults : String → Option Template
  splitDefaults : String → Option (String → Option Template)
  algorithmDefaults : String → Option Template
  loaderDefaults : Template
  modelDefaults : String → Option Template
  schedulerDefaults : String → Option Template

/-- Python `registry[v]`: a `KeyError` when the key is not a present string
(the registries are keyed by strings). -/
def tableGet (f : String → Option Template) : Val → Except CfgErr Template
  | .vStr s =>
      match f s with
      | some t => .ok t
      | none => .error .keyError
  | _ => .error .keyError

/-- Lines 14-29 of `populate_defaults`: the `from_source_domain` validation.
When `config.groupby_fields == ['from_source_domain']`, a `None`
`n_groups_per_batch` (resp. `unlabeled_n_groups_per_batch`) is set to `1`,
and a value `!= 1` raises a `ValueError`. -/
def checkFromSourceDomain (c : Config) : Except CfgErr Config :=
  eseq (getattrE c "groupby_fields") fun gb =>
  if gb = .vStrList ["from_source_domain"] then
    eseq (getattrE c "n_groups_per_batch") fun n =>
    eseq (match n with
          | .vNone => .ok (setKey c "n_groups_per_batch" (.vInt 1))
          | v =>
              if pyEqV v (.vInt 1) then .ok c
              else .error (.groupsValueError "n_groups_per_batch" v)) fun c1 =>
    eseq (getattrE c1 "unlabeled_n_groups_per_batch") fun u =>
    match u with
    | .vNone => .ok (setKey c1 "unlabeled_n_groups_per_batch" (.vInt 1))
    | v =>
        if pyEqV v (.vInt 1) then .ok c1
        else .error (.groupsValueError "unlabeled_n_groups_per_batch" v)
  else .ok c

/-- Lines 10-35 of `populate_defaults`: the two `assert`s, the
`from_source_domain` validation, and the DANN learning-rate validation. -/
def validateConfig (c : Config) : Except CfgErr Config :=
  eseq (getattrE c "dataset") fun d =>
  if d = .vNone then .error (.assertionError "dataset must be specified") else
  eseq (getattrE c "algorithm") fun a =>
  if a = .vNone then .error (.assertionError "algorithm must be specified") else
  eseq (checkFromSourceDomain c) fun c1 =>
  if a = .vStr "DANN" then
    eseq (getattrE c1 "lr") fun lr =>
    if lr ≠ .vNone then .error .dannLrValueError else .ok c1
  else .ok c1

/-- Lines 38-42: `populate_config(config, dataset_defaults[config.dataset])`. -/
def stageDataset (tb : Tables) (c : Config) : Except CfgErr Config :=
  eseq (getattrE c "dataset") fun d =>
  eseq (tableGet tb.datasetDefaults d) fun t =>
  populate_config c t false

/-- Lines 44-49: the split-scheme preset, applied only when
`config.dataset in split_defaults and config.split_scheme in
split_defaults[config.dataset]` (the second attribute read happens only if
the first membership test succeeds, as in Python's short-circuit `and`). -/
def stageSplit (tb : Tables) (c : Config) : Except CfgErr Config :=
  eseq (getattrE c "dataset") fun d =>
  match d with
  | .vStr s =>
      match tb.splitDefaults s with
      | none => .ok c
      | some sub =>
          eseq (getattrE c "split_scheme") fun ss =>
          match ss with
          | .vStr s2 =>
              match sub s2 with
              | some t => populate_config c t false
              | none => .ok c
          | _ => .ok c
  | _ => .ok c

/-- Lines 51-55: the algorithm preset. -/
def stageAlgorithm (tb : Tables) (c : Config) : Except CfgErr Config :=
  eseq (getattrE c "algorithm") fun a =>
  eseq (tableGet tb.algorithmDefaults a) fun t =>
  populate_config c t false

/-- Lines 57-61: the loader preset (`loader_defaults` is a single dict). -/
def stageLoader (tb : Tables) (c : Config) : Except CfgErr Config :=
  populate_config c tb.loaderDefaults false

/-- Lines 62-66: the model preset, applied only `if config.model:`. -/
def stageModel (tb : Tables) (c : Config) : Except CfgErr Config :=
  eseq (getattrE c "model") fun m =>
  if truthy m then
    eseq (tableGet tb.modelDefaults m) fun t =>
    populate_config c t false
  else .ok c

/-- Lines 68-72: the scheduler preset, applied only `if config.scheduler:`. -/
def stageScheduler (tb : Tables) (c : Config) : Except CfgErr Config :=
  eseq (getattrE c "scheduler") fun s =>
  if truthy s then
    eseq (tableGet tb.schedulerDefaults s) fun t =>
    populate_config c t false
  else .ok c

/-- Lines 38-72 of `populate_defaults`: the preset cascade, in source
order: dataset, split scheme, algorithm, loader, model, scheduler. -/
def applyPresets (tb : Tables) (c : Config) : Except CfgErr Config :=
  eseq (stageDataset tb c) fun c1 =>
  eseq (stageSplit tb c1) fun c2 =>
  eseq (stageAlgorithm tb c2) fun c3 =>
  eseq (stageLoader tb c3) fun c4 =>
  eseq (stageModel tb c4) fun c5 =>
  stageScheduler tb c5

/-- Lines 74-77: `no_group_logging` is forced to `True` when
`groupby_fields` is `None`, then cast with `bool(...)`. -/
def miscDefaults (c : Config) : Except CfgErr Config :=
  eseq (getattrE c "groupby_fields") fun gb =>
  let c1 := if gb = .vNone then setKey c "no_group_logging" (.vBool true) else c
  eseq (getattrE c1 "no_group_logging") fun ngl =>
  .ok (setKey c1 "no_group_logging" (.vBool (truthy ngl)))

/-- The required-field checklist of lines 80-83, in source order. -/
def requiredFields : List String :=
  ["split_scheme", "train_loader", "uniform_over_groups", "batch_size",
   "eval_loader", "model", "loss_function", "val_metric",
   "val_metric_decreasing", "n_epochs", "optimizer", "lr", "weight_decay"]

/-- Lines 84-85: assert each required field non-`None`, in list order. -/
def checkRequiredAux (c : Config) : List String → Except CfgErr Config
  | [] => .ok c
  | f :: fs =>
      eseq (getattrE c f) fun v =>
      if v = .vNone then
        .error (.assertionError ("Must manually specify " ++ f ++ " for this setup."))
      else checkRequiredAux c fs

/-- Lines 80-85 of `populate_defaults`: the required-field check. -/
def checkRequired (c : Config) : Except CfgErr Config :=
  checkRequiredAux c requiredFields

/-- `populate_defaults(config)` (lines 7-87): validations, then the preset
cascade, then the misc defaults, then the required-field check. -/
def populate_defaults (tb : Tables) (c : Config) : Except CfgErr Config :=
  eseq (validateConfig c) fun c1 =>
  eseq (applyPresets tb c1) fun c2 =>
  eseq (miscDefaults c2) fun c3 =>
  checkRequired c3

/-- A lookup result that Python's `populate_config` would overwrite: the key
is absent or holds `None`. -/
def nullAt (c : Config) (k : String) : Prop :=
  lookup c k = none ∨ lookup c k = some .vNone

instance (c : Config) (k : String) : Decidable (nullAt c k) := by
  unfold nullAt; infer_instance

/-- `nullAt` for a kwargs dict. -/
def nullAtS (d : List (String × SVal)) (k : String) : Prop :=
  lookup d k = none ∨ lookup d k = some .sNone

instance (d : List (String × SVal)) (k : String) : Decidable (nullAtS d k) := by
  unfold nullAtS; infer_instance

/-- Whether an error is one of the strict-mode conflict `ValueError`s (the
spec's `ConflictError`). -/
def CfgErr.isConflict : CfgErr → Bool
  | .conflict _ _ => true
  | .conflictKw _ _ _ => true
  | _ => false

/-- Some sub-key of a template kwargs dict `sub` holds, non-null in the
config's kwargs dict `d`, a value differing (Python `!=`) from the
template's. -/
def subMismatch (d sub : List (String × SVal)) : Bool :=
  sub.any (fun skv =>
    match lookup d skv.1 with
    | some w => w != .sNone && !pyEqS w skv.2
    | none => false)

/-- Following the spec's words for the amended strict-mode contract: some
key shared by config and template holds, non-null in the config, a value
that differs (Python `!=`) from the template's; for a template kwargs dict
the comparison is per sub-key against the config's non-null sub-values. -/
def hasSharedMismatch (c : Config) (t : Template) : Bool :=
  t.any (fun kv =>
    match kv.2.asDict? with
    | some sub =>
        match lookup c kv.1 with
        | some cv =>
            match cv.asDict? with
            | some d => subMismatch d sub
            | none => false
        | none => false
    | none =>
        match lookup c kv.1 with
        | some w => w != .vNone && !pyEqV w kv.2
        | none => false)

/-- Decidable well-formedness of a template relative to a config: every
template kwargs dict has pairwise-distinct sub-keys and sits at a key the
config maps to a kwargs dict (this is how `populate_config` is always
invoked: argparse initialises each `..._kwargs` field to `{}`). -/
def wfTemplate (c : Config) (t : Template) : Bool :=
  t.all (fun kv =>
    match kv.2.asDict? with
    | some sub =>
        decide (sub.map Prod.fst).Nodup &&
          (match lookup c kv.1 with
           | some cv => (cv.asDict?).isSome
           | none => false)
    | none => true)

/-- A config transformer never replaces an already non-null value: a
non-null scalar field keeps its exact value, and a kwargs-dict field stays
a dict whose non-null sub-values keep their exact values (first-writer-wins
at the level of fields and of kwargs sub-keys). -/
def PreservesNonNull (f : Config → Except CfgErr Config) : Prop :=
  ∀ c c', f c = .ok c' →
    ((∀ k v, lookup c k = some v → v ≠ .vNone → (∀ d, v ≠ .vDict d) →
        lookup c' k = some v) ∧
     (∀ k d, lookup c k = some (.vDict d) →
        ∃ d', lookup c' k = some (.vDict d') ∧
          ∀ kk w, lookup d kk = some w → w ≠ .sNone → lookup d' kk = some w))

/-!
## DeepCORAL (`examples/algorithms/deepCORAL.py`)

Feature tensors are modelled as matrices `List (List Rat)` (batch rows of
feature vectors); the `dim() > 2` flattening in `coral_penalty` is the
identity on matrices.  Tensor arithmetic over floats is modelled exactly
over the rationals.
-/

namespace DeepCORAL

/-- The feature dimensionality of a matrix (`x.size(-1)`). -/
def width (x : List (List Rat)) : Nat := (x.headD []).length

/-- `x.mean(0)`: the per-column means of a matrix. -/
def colMeans (x : List (List Rat)) : List Rat :=
  (List.range (width x)).map
    (fun j => (x.map (fun r => r.getD j 0)).sum / (x.length : Rat))

/-- `cent_x = x - mean_x` (line 63): subtract the column means row-wise. -/
def centered (x : List (List Rat)) : List (List Rat) :=
  x.map (fun r =>
    (List.range (width x)).map (fun j => r.getD j 0 - (colMeans x).getD j 0))

/-- `cova_x = (cent_x.t() @ cent_x) / (len(x) - 1)` (line 65). -/
def cova (x : List (List Rat)) : List (List Rat) :=
  (List.range (width x)).map (fun i =>
    (List.range (width x)).map (fun j =>
      ((centered x).map (fun r => r.getD i 0 * r.getD j 0)).sum
        / ((x.length : Rat) - 1)))

/-- `.mean()` of a vector. -/
def vecMean (v : List Rat) : Rat := v.sum / (v.length : Rat)

/-- `.mean()` over all entries of a matrix. -/
def matMean (m : List (List Rat)) : Rat :=
  ((m.map List.sum).sum) / ((m.length * width m : Nat) : Rat)

/-- `DeepCORAL.coral_penalty(x, y)` (lines 54-71): mean squared difference
of the column means plus mean squared difference of the sample covariance
matrices. -/
def coral_penalty (x y : List (List Rat)) : Rat :=
  let w := width x
  let mean_diff :=
    vecMean ((List.range w).map
      (fun j => ((colMeans x).getD j 0 - (colMeans y).getD j 0) ^ 2))
  let cova_diff :=
    matMean ((List.range w).map (fun i =>
      (List.range w).map (fun j =>
        (((cova x).getD i []).getD j 0 - ((cova y).getD i []).getD j 0) ^ 2)))
  mean_diff + cova_diff

/-- Modelled from the spec: `split_into_groups` lives in
`wilds.common.utils`, which is not among the provided sources; the spec
says `objective` "partitions batch examples into groups by group identifier
(stable split preserving group sets)".  Returns the distinct group
identifiers in order of first occurrence and, for each, the positions
holding it (the third returned component of the Python function, the group
counts, is discarded by `objective` and omitted here). -/
def split_into_groups (g : List Nat) : List Nat × List (List Nat) :=
  let uniq := g.foldl (fun acc x => if x ∈ acc then acc else acc ++ [x]) []
  (uniq, uniq.map (fun grp => (List.range g.length).filter (fun i => g.getD i 0 = grp)))

/-- Tensor fancy indexing `feats[indices]`: select rows. -/
def selectRows (feats : List (List Rat)) (idx : List Nat) : List (List Rat) :=
  idx.map (fun i => feats.getD i [])

/-- The per-group feature matrices that `objective` compares pairwise: the
labeled groups (in `split_into_groups` order), then — when both unlabeled
features and unlabeled group identifiers are present — the unlabeled
groups. -/
def groupFeats (lf : List (List Rat)) (ufo : Option (List (List Rat)))
    (ugo : Option (List Nat)) (g : List Nat) : List (List (List Rat)) :=
  match ufo, ugo with
  | some uf, some ug =>
      (split_into_groups g).2.map (selectRows lf)
        ++ (split_into_groups ug).2.map (selectRows uf)
  | _, _ => (split_into_groups g).2.map (selectRows lf)

/-- The results mapping produced by `DeepCORAL.process_batch` (lines
86-97): keys absent from the Python dict are `none`. -/
structure CoralResults where
  g : List Nat
  y_true : List Rat
  y_pred : List Rat
  metadata : List Rat
  features : Option (List (List Rat))
  unlabeled_features : Option (List (List Rat))
  unlabeled_g : Option (List Nat)
  penalty : Option Rat
  deriving DecidableEq, Repr

/-- The nested loop of lines 118-124: pairwise penalties between all groups,
taking features from the labeled matrix for group positions below `n` and
from the unlabeled matrix otherwise (when no unlabeled features exist the
`else` branch is unreachable because `total = n`). -/
def pairPenaltySum (lf uf : List (List Rat)) (n total : Nat)
    (allIdx : List (List Nat)) : Rat :=
  ∑ i ∈ Finset.range total, ∑ j ∈ Finset.Ico (i + 1) total,
    coral_penalty
      (selectRows (if i < n then lf else uf) (allIdx.getD i []))
      (selectRows (if j < n then lf else uf) (allIdx.getD j []))

/-- `DeepCORAL.objective(results)` (lines 100-137).  The base loss
`self.loss.compute(...)` is an external collaborator, passed in as `loss`;
`penalty_weight` is `self.penalty_weight`; `is_training` is the algorithm's
mode.  A `.error ()` models a raised `KeyError` (`results.pop('features')`
on a mapping without features, or `results['unlabeled_g']` when only the
unlabeled features are present).  The returned pair is the objective value
together with the results mapping as mutated in place by the Python code. -/
def objective (loss : List Rat → List Rat → Rat) (penalty_weight : Rat)
    (is_training : Bool) (r : CoralResults) : Except Unit (Rat × CoralResults) :=
  match r.features with
  | none => .error ()
  | some labeled_features =>
    if is_training then
      let sg := split_into_groups r.g
      let n := sg.1.length
      match r.unlabeled_features with
      | some unlabeled_features =>
          match r.unlabeled_g with
          | none => .error ()
          | some ulg =>
              let usg := split_into_groups ulg
              let total := n + usg.1.length
              let allIdx := sg.2 ++ usg.2
              let pensum := pairPenaltySum labeled_features unlabeled_features n total allIdx
              let penalty :=
                if 1 < total then pensum / (((total * (total - 1) : Nat) : Rat) / 2)
                else pensum
              .ok (loss r.y_pred r.y_true + penalty * penalty_weight,
                   { r with features := none, unlabeled_features := none,
                            penalty := some penalty })
      | none =>
          let total := n
          let pensum := pairPenaltySum labeled_features [] n total sg.2
          let penalty :=
            if 1 < total then pensum / (((total * (total - 1) : Nat) : Rat) / 2)
            else pensum
          .ok (loss r.y_pred r.y_true + penalty * penalty_weight,
               { r with features := none, penalty := some penalty })
    else
      .ok (loss r.y_pred r.y_true + 0 * penalty_weight,
           { r with features := none, penalty := some 0 })

end DeepCORAL

/-!
## Helper lemmas about the association-list operations
-/

theorem lookup_setKey_self {α : Type} (c : List (String × α)) (k : String) (v : α) :
    lookup (setKey c k v) k = some v := by
  induction c with
  | nil => simp [setKey, lookup]
  | cons kv rest ih =>
      obtain ⟨k0, v0⟩ := kv
      by_cases h : k0 = k <;> simp [setKey, lookup, h, ih]

theorem lookup_setKey_ne {α : Type} (c : List (String × α)) {k k' : String} (v : α)
    (h : k' ≠ k) : lookup (setKey c k v) k' = lookup c k' := by
  induction c with
  | nil => simp [setKey, lookup, Ne.symm h]
  | cons kv rest ih =>
      obtain ⟨k0, v0⟩ := kv
      by_cases h0 : k0 = k
      · subst h0
        simp [setKey, lookup, Ne.symm h]
      · simp [setKey, lookup, h0, ih]

theorem setKey_eq_self {α : Type} (c : List (String × α)) {k : String} {v : α}
    (h : lookup c k = some v) : setKey c k v = c := by
  induction c with
  | nil => simp [lookup] at h
  | cons kv rest ih =>
      obtain ⟨k0, v0⟩ := kv
      by_cases h0 : k0 = k
      · subst h0
        simp [lookup] at h
        simp [setKey, h]
      · simp [lookup, h0] at h
        simp [setKey, h0, ih h]

theorem lookup_eq_none_iff {α : Type} (c : List (String × α)) (k : String) :
    lookup c k = none ↔ k ∉ c.map Prod.fst := by
  induction c with
  | nil => simp [lookup]
  | cons kv rest ih =>
      obtain ⟨k0, v0⟩ := kv
      by_cases h0 : k0 = k
      · subst h0
        simp [lookup]
      · simp [lookup, h0, ih, Ne.symm h0]

theorem lookup_of_mem_nodup {α : Type} {c : List (String × α)} {k : String} {v : α}
    (hnd : (c.map Prod.fst).Nodup) (h : (k, v) ∈ c) : lookup c k = some v := by
  induction c with
  | nil => simp at h
  | cons kv rest ih =>
      obtain ⟨k0, v0⟩ := kv
      simp only [List.map_cons, List.nodup_cons] at hnd
      rcases List.mem_cons.1 h with h1 | h1
      · rw [show k0 = k from congrArg Prod.fst h1.symm] at hnd ⊢
        have hv : v0 = v := congrArg Prod.snd h1.symm
        simp [lookup, hv]
      · have hk : k0 ≠ k := by
          intro he
          apply hnd.1
          rw [he]
          exact List.mem_map.2 ⟨(k, v), h1, rfl⟩
        simp [lookup, hk, ih hnd.2 h1]

/-!
## Lemmas about `mergeKwargs` and `popOne`
-/

theorem mergeKwargs_preserve {force : Bool} {key : String}
    {d sub d' : List (String × SVal)}
    (h : mergeKwargs force key d sub = .ok d') :
    ∀ kk w, lookup d kk = some w → w ≠ .sNone → lookup d' kk = some w := by
  induction sub generalizing d with
  | nil =>
      simp only [mergeKwargs] at h
      cases h
      exact fun kk w hw _ => hw
  | cons skv sub ih =>
      obtain ⟨kk0, kv0⟩ := skv
      intro kk w hw hwn
      simp only [mergeKwargs] at h
      cases hl : lookup d kk0 with
      | none =>
          simp only [hl] at h
          have hne : kk ≠ kk0 := by
            intro he
            rw [he, hl] at hw
            exact Option.noConfusion hw
          refine ih h kk w ?_ hwn
          rw [lookup_setKey_ne d kv0 hne]
          exact hw
      | some w0 =>
          simp only [hl] at h
          by_cases h0 : w0 = SVal.sNone

          · rw [if_pos h0] at h
            have hne : kk ≠ kk0 := by
              intro he
              rw [he, hl] at hw
              cases hw
              exact hwn h0
            refine ih h kk w ?_ hwn
            rw [lookup_setKey_ne d kv0 hne]
            exact hw
          · rw [if_neg h0] at h
            by_cases h1 : (!pyEqS w0 kv0 && force) = true
            · rw [if_pos h1] at h
              exact Except.noConfusion h
            · rw [if_neg h1] at h
              exact ih h kk w hw hwn

theorem mergeKwargs_char (key : String) {sub : List (String × SVal)}
    (hnd : (sub.map Prod.fst).Nodup) :
    ∀ d : List (String × SVal),
    ∃ d', mergeKwargs false key d sub = .ok d' ∧
      (∀ kk sv, lookup sub kk = some sv →
         (nullAtS d kk → lookup d' kk = some sv) ∧
         (¬ nullAtS d kk → lookup d' kk = lookup d kk)) ∧
      (∀ kk, lookup sub kk = none → lookup d' kk = lookup d kk) := by
  induction sub with
  | nil =>
      intro d
      exact ⟨d, rfl, fun kk sv hkk => by simp [lookup] at hkk, fun kk _ => rfl⟩
  | cons skv sub ih =>
      obtain ⟨kk0, kv0⟩ := skv
      simp only [List.map_cons, List.nodup_cons] at hnd
      have hnotin : lookup sub kk0 = none :=
        (lookup_eq_none_iff sub kk0).2 hnd.1
      intro d
      by_cases hnull : nullAtS d kk0
      · -- the sub-key is filled with the template's value
        obtain ⟨d', hok, hsome, hnone⟩ := ih hnd.2 (setKey d kk0 kv0)
        refine ⟨d', ?_, ?_, ?_⟩
        · rcases hnull with hl | hl <;>
            simp [mergeKwargs, hl, hok]
        · intro kk sv hkk
          by_cases hke : kk = kk0
          · subst hke
            simp only [lookup, if_pos rfl] at hkk
            cases hkk
            constructor
            · intro _
              rw [hnone kk hnotin, lookup_setKey_self]
            · intro hcon
              exact absurd hnull hcon
          · have hkk2 : lookup sub kk = some sv := by
              simpa [lookup, Ne.symm hke] using hkk
            have hset : lookup (setKey d kk0 kv0) kk = lookup d kk :=
              lookup_setKey_ne d kv0 hke
            have hnulliff : nullAtS (setKey d kk0 kv0) kk ↔ nullAtS d kk := by
              unfold nullAtS
              rw [hset]
            constructor
            · intro hn
              exact (hsome kk sv hkk2).1 (hnulliff.2 hn)
            · intro hn
              rw [(hsome kk sv hkk2).2 (fun hc => hn (hnulliff.1 hc)), hset]
        · intro kk hkk
          have hke : kk ≠ kk0 := by
            intro he
            rw [he] at hkk
            simp [lookup] at hkk
          have hkk2 : lookup sub kk = none := by
            simpa [lookup, Ne.symm hke] using hkk
          rw [hnone kk hkk2, lookup_setKey_ne d kv0 hke]
      · -- the sub-key already holds a non-null value: it is skipped
        obtain ⟨w0, hw0, hw0n⟩ : ∃ w0, lookup d kk0 = some w0 ∧ w0 ≠ SVal.sNone := by
          unfold nullAtS at hnull
          push_neg at hnull
          cases hl : lookup d kk0 with
          | none => exact absurd hl hnull.1
          | some w0 => exact ⟨w0, rfl, fun he => hnull.2 (by rw [hl, he])⟩
        obtain ⟨d', hok, hsome, hnone⟩ := ih hnd.2 d
        refine ⟨d', ?_, ?_, ?_⟩
        · simp [mergeKwargs, hw0, hw0n, hok]
        · intro kk sv hkk
          by_cases hke : kk = kk0
          · subst hke
            constructor
            · intro hn
              exact absurd hn hnull
            · intro _
              exact hnone kk hnotin
          · have hkk2 : lookup sub kk = some sv := by
              simpa [lookup, Ne.symm hke] using hkk
            exact hsome kk sv hkk2
        · intro kk hkk
          have hke : kk ≠ kk0 := by
            intro he
            rw [he] at hkk
            simp [lookup] at hkk
          have hkk2 : lookup sub kk = none := by
            simpa [lookup, Ne.symm hke] using hkk
          exact hnone kk hkk2

theorem popOne_lookup_ne {force : Bool} {c c' : Config} {kv : String × Val}
    (h : popOne force c kv = .ok c') {k : String} (hk : k ≠ kv.1) :
    lookup c' k = lookup c k := by
  obtain ⟨k0, v0⟩ := kv
  simp only at hk
  cases hD : v0.asDict? with
  | some sub =>
      simp only [popOne, hD] at h
      cases hl : lookup c k0 with
      | none =>
          simp only [hl] at h
          exact Except.noConfusion h
      | some cv =>
          simp only [hl] at h
          cases hD2 : cv.asDict? with
          | none =>
              simp only [hD2] at h
              exact Except.noConfusion h
          | some d =>
              simp only [hD2] at h
              cases hm : mergeKwargs force k0 d sub with
              | error e =>
                  simp only [hm] at h
                  exact Except.noConfusion h
              | ok d2 =>
                  simp only [hm] at h
                  cases h
                  exact lookup_setKey_ne c _ hk
  | none =>
      simp only [popOne, hD] at h
      cases hl : lookup c k0 with
      | none =>
          simp only [hl] at h
          cases h
          exact lookup_setKey_ne c _ hk
      | some w =>
          simp only [hl] at h
          by_cases h0 : w = Val.vNone
          · rw [if_pos h0] at h
            cases h
            exact lookup_setKey_ne c _ hk
          · rw [if_neg h0] at h
            by_cases h1 : (!pyEqV w v0 && force) = true
            · rw [if_pos h1] at h
              exact Except.noConfusion h
            · rw [if_neg h1] at h
              cases h
              rfl

theorem popOne_preserve_scalar {force : Bool} {c c' : Config} {kv : String × Val}
    (h : popOne force c kv = .ok c') {k : String} {v : Val}
    (hv : lookup c k = some v) (hvn : v ≠ .vNone) (hvd : ∀ d, v ≠ .vDict d) :
    lookup c' k = some v := by
  by_cases hk : k = kv.1
  · subst hk
    obtain ⟨k0, v0⟩ := kv
    simp only at hv
    cases hD : v0.asDict? with
    | some sub =>
        simp only [popOne, hD, hv] at h
        cases hD2 : v.asDict? with
        | none =>
            simp only [hD2] at h
            exact Except.noConfusion h
        | some d =>
            cases v with
            | vDict d0 => exact absurd rfl (hvd d0)
            | vNone => exact absurd rfl hvn
            | vBool b => simp [Val.asDict?] at hD2
            | vInt n => simp [Val.asDict?] at hD2
            | vRat q => simp [Val.asDict?] at hD2
            | vStr s => simp [Val.asDict?] at hD2
            | vStrList l => simp [Val.asDict?] at hD2
    | none =>
        simp only [popOne, hD, hv] at h
        rw [if_neg hvn] at h
        by_cases h1 : (!pyEqV v v0 && force) = true
        · rw [if_pos h1] at h
          exact Except.noConfusion h
        · rw [if_neg h1] at h
          cases h
          exact hv
  · rw [popOne_lookup_ne h hk]
    exact hv

theorem popOne_preserve_dict {force : Bool} {c c' : Config} {kv : String × Val}
    (h : popOne force c kv = .ok c') {k : String} {d : List (String × SVal)}
    (hv : lookup c k = some (.vDict d)) :
    ∃ d', lookup c' k = some (.vDict d') ∧
      ∀ kk w, lookup d kk = some w → w ≠ .sNone → lookup d' kk = some w := by
  by_cases hk : k = kv.1
  · subst hk
    obtain ⟨k0, v0⟩ := kv
    simp only at hv
    cases hD : v0.asDict? with
    | some sub =>
        simp only [popOne, hD, hv] at h
        simp only [Val.asDict?] at h
        cases hm : mergeKwargs force k0 d sub with
        | error e =>
            simp only [hm] at h
            exact Except.noConfusion h
        | ok d2 =>
            simp only [hm] at h
            cases h
            exact ⟨d2, lookup_setKey_self c k0 _, mergeKwargs_preserve hm⟩
    | none =>
        simp only [popOne, hD, hv] at h
        rw [if_neg (by intro hh; exact Val.noConfusion hh)] at h
        by_cases h1 : (!pyEqV (.vDict d) v0 && force) = true
        · rw [if_pos h1] at h
          exact Except.noConfusion h
        · rw [if_neg h1] at h
          cases h
          exact ⟨d, hv, fun kk w hw _ => hw⟩
  · rw [popOne_lookup_ne h hk]
    exact ⟨d, hv, fun kk w hw _ => hw⟩

theorem populate_config_lookup_notin {force : Bool} {c c' : Config} {t : Template}
    (h : populate_config c t force = .ok c') {k : String}
    (hk : lookup t k = none) : lookup c' k = lookup c k := by
  induction t generalizing c with
  | nil =>
      simp only [populate_config] at h
      cases h
      rfl
  | cons kv t ih =>
      obtain ⟨k0, v0⟩ := kv
      have hk0 : k ≠ k0 := by
        intro he
        rw [he] at hk
        simp [lookup] at hk
      have hkt : lookup t k = none := by
        simpa [lookup, Ne.symm hk0] using hk
      simp only [populate_config] at h
      cases hp : popOne force c (k0, v0) with
      | error e =>
          rw [hp] at h
          exact Except.noConfusion h
      | ok c2 =>
          rw [hp] at h
          rw [ih h hkt, popOne_lookup_ne hp hk0]

theorem populate_config_preserve_scalar {force : Bool} {c c' : Config} {t : Template}
    (h : populate_config c t force = .ok c') {k : String} {v : Val}
    (hv : lookup c k = some v) (hvn : v ≠ .vNone) (hvd : ∀ d, v ≠ .vDict d) :
    lookup c' k = some v := by
  induction t generalizing c with
  | nil =>
      simp only [populate_config] at h
      cases h
      exact hv
  | cons kv t ih =>
      simp only [populate_config] at h
      cases hp : popOne force c kv with
      | error e =>
          rw [hp] at h
          exact Except.noConfusion h
      | ok c2 =>
          rw [hp] at h
          exact ih h (popOne_preserve_scalar hp hv hvn hvd)

theorem populate_config_preserve_dict {force : Bool} {c c' : Config} {t : Template}
    (h : populate_config c t force = .ok c') {k : String} {d : List (String × SVal)}
    (hv : lookup c k = some (.vDict d)) :
    ∃ d', lookup c' k = some (.vDict d') ∧
      ∀ kk w, lookup d kk = some w → w ≠ .sNone → lookup d' kk = some w := by
  induction t generalizing c d with
  | nil =>
      simp only [populate_config] at h
      cases h
      exact ⟨d, hv, fun kk w hw _ => hw⟩
  | cons kv t ih =>
      simp only [populate_config] at h
      cases hp : popOne force c kv with
      | error e =>
          rw [hp] at h
          exact Except.noConfusion h
      | ok c2 =>
          rw [hp] at h
          obtain ⟨d2, hd2, hpres2⟩ := popOne_preserve_dict hp hv
          obtain ⟨d', hd', hpres'⟩ := ih h hd2
          exact ⟨d', hd', fun kk w hw hwn => hpres' kk w (hpres2 kk w hw hwn) hwn⟩

theorem mergeKwargs_presence {force : Bool} {key : String}
    {d sub d' : List (String × SVal)}
    (h : mergeKwargs force key d sub = .ok d') {kk : String}
    (hw : (lookup d kk).isSome) : (lookup d' kk).isSome := by
  induction sub generalizing d with
  | nil =>
      simp only [mergeKwargs] at h
      cases h
      exact hw
  | cons skv sub ih =>
      obtain ⟨kk0, kv0⟩ := skv
      simp only [mergeKwargs] at h
      have hset : (lookup (setKey d kk0 kv0) kk).isSome := by
        by_cases hke : kk = kk0
        · subst hke
          simp [lookup_setKey_self]
        · rw [lookup_setKey_ne d kv0 hke]
          exact hw
      cases hl : lookup d kk0 with
      | none =>
          simp only [hl] at h
          exact ih h hset
      | some w0 =>
          simp only [hl] at h
          by_cases h0 : w0 = SVal.sNone
          · rw [if_pos h0] at h
            exact ih h hset
          · rw [if_neg h0] at h
            by_cases h1 : (!pyEqS w0 kv0 && force) = true
            · rw [if_pos h1] at h
              exact Except.noConfusion h
            · rw [if_neg h1] at h
              exact ih h hw

theorem mergeKwargs_idem {key : String} {d sub d' : List (String × SVal)}
    (h : mergeKwargs false key d sub = .ok d') :
    mergeKwargs false key d' sub = .ok d' := by
  induction sub generalizing d with
  | nil =>
      simp only [mergeKwargs] at h
      cases h
      rfl
  | cons skv sub ih =>
      obtain ⟨kk0, kv0⟩ := skv
      simp only [mergeKwargs] at h
      have hfill : ∀ e : List (String × SVal),
          mergeKwargs false key (setKey e kk0 kv0) sub = .ok d' →
          mergeKwargs false key d' ((kk0, kv0) :: sub) = .ok d' := by
        intro e h2
        have hpres0 : lookup (setKey e kk0 kv0) kk0 = some kv0 :=
          lookup_setKey_self e kk0 kv0
        have hsome0 : (lookup (setKey e kk0 kv0) kk0).isSome := by
          simp [hpres0]
        obtain ⟨w', hw'⟩ := Option.isSome_iff_exists.1 (mergeKwargs_presence h2 hsome0)
        simp only [mergeKwargs, hw']
        by_cases hn : w' = SVal.sNone
        · have hkv0 : kv0 = SVal.sNone := by
            by_contra hkv0
            have := mergeKwargs_preserve h2 kk0 kv0 hpres0 hkv0
            rw [hw'] at this
            cases this
            exact hkv0 hn
          rw [if_pos hn, setKey_eq_self d' (by rw [hw', hn, hkv0])]
          exact ih h2
        · simp only [if_neg hn, Bool.and_false, Bool.false_eq_true, if_false]
          exact ih h2
      cases hl : lookup d kk0 with
      | none =>
          simp only [hl] at h
          exact hfill d h
      | some w0 =>
          simp only [hl] at h
          by_cases h0 : w0 = SVal.sNone
          · rw [if_pos h0] at h
            exact hfill d h
          · simp only [if_neg h0, Bool.and_false, Bool.false_eq_true, if_false] at h
            have hw' : lookup d' kk0 = some w0 := mergeKwargs_preserve h kk0 w0 hl h0
            simp only [mergeKwargs, hw', if_neg h0, Bool.and_false,
              Bool.false_eq_true, if_false]
            exact ih h

theorem popOne_stable {c c1 c2 : Config} {kv : String × Val}
    (h : popOne false c kv = .ok c1)
    (hc2 : lookup c2 kv.1 = lookup c1 kv.1) :
    popOne false c2 kv = .ok c2 := by
  obtain ⟨k0, v0⟩ := kv
  simp only at hc2
  cases hD : v0.asDict? with
  | some sub =>
      simp only [popOne, hD] at h ⊢
      cases hl : lookup c k0 with
      | none =>
          simp only [hl] at h
          exact Except.noConfusion h
      | some cv =>
          simp only [hl] at h
          cases hD2 : cv.asDict? with
          | none =>
              simp only [hD2] at h
              exact Except.noConfusion h
          | some d =>
              simp only [hD2] at h
              cases hm : mergeKwargs false k0 d sub with
              | error e =>
                  simp only [hm] at h
                  exact Except.noConfusion h
              | ok d2 =>
                  simp only [hm] at h
                  cases h
                  have hc2' : lookup c2 k0 = some (Val.vDict d2) := by
                    rw [hc2, lookup_setKey_self]
                  simp only [hc2', Val.asDict?, mergeKwargs_idem hm]
                  exact congrArg Except.ok (setKey_eq_self c2 hc2')
  | none =>
      simp only [popOne, hD] at h ⊢
      cases hl : lookup c k0 with
      | none =>
          simp only [hl] at h
          cases h
          have hc2' : lookup c2 k0 = some v0 := by
            rw [hc2, lookup_setKey_self]
          simp only [hc2']
          by_cases hn : v0 = Val.vNone
          · rw [if_pos hn]
            exact congrArg Except.ok (setKey_eq_self c2 hc2')
          · simp only [if_neg hn, Bool.and_false, Bool.false_eq_true, if_false]
      | some w =>
          simp only [hl] at h
          by_cases h0 : w = Val.vNone
          · rw [if_pos h0] at h
            cases h
            have hc2' : lookup c2 k0 = some v0 := by
              rw [hc2, lookup_setKey_self]
            simp only [hc2']
            by_cases hn : v0 = Val.vNone
            · rw [if_pos hn]
              exact congrArg Except.ok (setKey_eq_self c2 hc2')
            · simp only [if_neg hn, Bool.and_false, Bool.false_eq_true, if_false]
          · simp only [if_neg h0, Bool.and_false, Bool.false_eq_true, if_false] at h
            cases h
            have hc2' : lookup c2 k0 = some w := by rw [hc2, hl]
            simp only [hc2', if_neg h0, Bool.and_false, Bool.false_eq_true, if_false]

theorem populate_config_idem {c c' : Config} {t : Template}
    (hnd : (t.map Prod.fst).Nodup)
    (h : populate_config c t false = .ok c') :
    populate_config c' t false = .ok c' := by
  induction t generalizing c with
  | nil =>
      simp only [populate_config]
  | cons kv t ih =>
      simp only [List.map_cons, List.nodup_cons] at hnd
      simp only [populate_config] at h ⊢
      cases hp : popOne false c kv with
      | error e =>
          rw [hp] at h
          exact Except.noConfusion h
      | ok c2 =>
          rw [hp] at h
          have hlk : lookup c' kv.1 = lookup c2 kv.1 :=
            populate_config_lookup_notin h ((lookup_eq_none_iff t kv.1).2 hnd.1)
          rw [popOne_stable hp hlk]
          exact ih hnd.2 h

theorem val_asDict_eq_some {v : Val} {d : List (String × SVal)} :
    v.asDict? = some d ↔ v = .vDict d := by
  cases v <;> simp [Val.asDict?]

theorem populate_config_char (t : Template) :
    ∀ c : Config, (t.map Prod.fst).Nodup →
    (∀ k sub, (k, Val.vDict sub) ∈ t → (sub.map Prod.fst).Nodup) →
    (∀ k sub, (k, Val.vDict sub) ∈ t → ∃ d, lookup c k = some (.vDict d)) →
    ∃ c', populate_config c t false = .ok c' ∧
      (∀ k v, (k, v) ∈ t → v.asDict? = none →
         (nullAt c k → lookup c' k = some v) ∧
         (¬ nullAt c k → lookup c' k = lookup c k)) ∧
      (∀ k sub, (k, Val.vDict sub) ∈ t →
         ∀ d, lookup c k = some (.vDict d) →
           ∃ d', lookup c' k = some (.vDict d') ∧
             (∀ kk sv, lookup sub kk = some sv →
                (nullAtS d kk → lookup d' kk = some sv) ∧
                (¬ nullAtS d kk → lookup d' kk = lookup d kk)) ∧
             (∀ kk, lookup sub kk = none → lookup d' kk = lookup d kk)) ∧
      (∀ k, lookup t k = none → lookup c' k = lookup c k) := by
  induction t with
  | nil =>
      intro c _ _ _
      refine ⟨c, rfl, ?_, ?_, fun k _ => rfl⟩
      · intro k v hk
        exact absurd hk (List.not_mem_nil _)
      · intro k sub hk
        exact absurd hk (List.not_mem_nil _)
  | cons kv t ih =>
      intro c hnd hsubnd hwf
      obtain ⟨k0, v0⟩ := kv
      simp only [List.map_cons, List.nodup_cons] at hnd
      have hk0t : lookup t k0 = none := (lookup_eq_none_iff t k0).2 hnd.1
      -- case split on whether the template value is a kwargs dict
      cases hD : v0.asDict? with
      | some sub =>
          have hv0 : v0 = .vDict sub := val_asDict_eq_some.1 hD
          subst hv0
          have hmem0 : (k0, Val.vDict sub) ∈ (k0, Val.vDict sub) :: t :=
            List.mem_cons_self _ _
          obtain ⟨d, hld⟩ := hwf k0 sub hmem0
          obtain ⟨d', hmok, hmsome, hmnone⟩ :=
            mergeKwargs_char k0 (hsubnd k0 sub hmem0) d
          have hpop : popOne false c (k0, Val.vDict sub) = .ok (setKey c k0 (.vDict d')) := by
            simp only [popOne, Val.asDict?, hld, hmok]
          set c1 := setKey c k0 (.vDict d') with hc1
          have hagree : ∀ k, k ≠ k0 → lookup c1 k = lookup c k := by
            intro k hk
            exact lookup_setKey_ne c _ hk
          obtain ⟨c', hok, hscalar, hdict, hnotin⟩ := ih c1 hnd.2
            (fun k sub2 hk => hsubnd k sub2 (List.mem_cons_of_mem _ hk))
            (by
              intro k sub2 hk
              have hkne : k ≠ k0 := by
                intro he
                apply hnd.1
                rw [← he]
                exact List.mem_map.2 ⟨(k, Val.vDict sub2), hk, rfl⟩
              rw [hagree k hkne]
              exact hwf k sub2 (List.mem_cons_of_mem _ hk))
          refine ⟨c', ?_, ?_, ?_, ?_⟩
          · simp only [populate_config, hpop]
            exact hok
          · -- scalar keys all live in the tail
            intro k v hk hD2
            have hkt : (k, v) ∈ t := by
              rcases List.mem_cons.1 hk with h1 | h1
              · exfalso
                have hv : v = Val.vDict sub := congrArg Prod.snd h1
                rw [hv] at hD2
                simp [Val.asDict?] at hD2
              · exact h1
            have hkne : k ≠ k0 := by
              intro he
              apply hnd.1
              rw [← he]
              exact List.mem_map.2 ⟨(k, v), hkt, rfl⟩
            have hnull : nullAt c1 k ↔ nullAt c k := by
              unfold nullAt
              rw [hagree k hkne]
            obtain ⟨hs1, hs2⟩ := hscalar k v hkt hD2
            constructor
            · intro hn
              exact hs1 (hnull.2 hn)
            · intro hn
              rw [hs2 (fun hc => hn (hnull.1 hc)), hagree k hkne]
          · -- kwargs dict keys: the head, or the tail
            intro k sub2 hk d0 hld0
            rcases List.mem_cons.1 hk with h1 | h1
            · -- the head key
              have hkk : k = k0 := congrArg Prod.fst h1
              have hss : Val.vDict sub2 = Val.vDict sub := congrArg Prod.snd h1
              have hsub : sub2 = sub := Val.vDict.inj hss
              subst hkk
              subst hsub
              have hd0 : d0 = d := by
                rw [hld] at hld0
                exact (Val.vDict.inj (Option.some.inj hld0)).symm
              subst hd0
              refine ⟨d', ?_, hmsome, hmnone⟩
              rw [hnotin _ hk0t]
              exact lookup_setKey_self c _ _
            · -- a tail key
              have hkne : k ≠ k0 := by
                intro he
                apply hnd.1
                rw [← he]
                exact List.mem_map.2 ⟨(k, Val.vDict sub2), h1, rfl⟩
              refine hdict k sub2 h1 d0 ?_
              rw [hagree k hkne]
              exact hld0
          · intro k hk
            have hkne : k ≠ k0 := by
              intro he
              rw [he] at hk
              simp [lookup] at hk
            have hkt : lookup t k = none := by
              simpa [lookup, Ne.symm hkne] using hk
            rw [hnotin k hkt, hagree k hkne]
      | none =>
          -- a scalar template value: fill it iff the key is null/absent
          have hstep : ∃ c1, popOne false c (k0, v0) = .ok c1 ∧
              (nullAt c k0 → c1 = setKey c k0 v0) ∧
              (¬ nullAt c k0 → c1 = c) := by
            cases hl : lookup c k0 with
            | none =>
                refine ⟨setKey c k0 v0, ?_, fun _ => rfl, fun hn => ?_⟩
                · simp only [popOne, hD, hl]
                · exact absurd (Or.inl hl) hn
            | some w =>
                by_cases hw : w = Val.vNone
                · refine ⟨setKey c k0 v0, ?_, fun _ => rfl, fun hn => ?_⟩
                  · simp only [popOne, hD, hl, if_pos hw]
                  · exact absurd (Or.inr (hw ▸ hl)) hn
                · refine ⟨c, ?_, fun hn => ?_, fun _ => rfl⟩
                  · simp only [popOne, hD, hl, if_neg hw, Bool.and_false,
                      Bool.false_eq_true, if_false]
                  · exfalso
                    rcases hn with h1 | h1
                    · rw [hl] at h1
                      exact Option.noConfusion h1
                    · rw [hl] at h1
                      exact hw (Option.some.inj h1)
          obtain ⟨c1, hpop, hfill, hskip⟩ := hstep
          have hagree : ∀ k, k ≠ k0 → lookup c1 k = lookup c k := by
            intro k hk
            by_cases hn : nullAt c k0
            · rw [hfill hn]
              exact lookup_setKey_ne c _ hk
            · rw [hskip hn]
          have hlk0 : lookup c1 k0 = (if nullAt c k0 then some v0 else lookup c k0) := by
            by_cases hn : nullAt c k0
            · rw [if_pos hn, hfill hn]
              exact lookup_setKey_self c k0 v0
            · rw [if_neg hn, hskip hn]
          obtain ⟨c', hok, hscalar, hdict, hnotin⟩ := ih c1 hnd.2
            (fun k sub2 hk => hsubnd k sub2 (List.mem_cons_of_mem _ hk))
            (by
              intro k sub2 hk
              have hkne : k ≠ k0 := by
                intro he
                apply hnd.1
                rw [← he]
                exact List.mem_map.2 ⟨(k, Val.vDict sub2), hk, rfl⟩
              rw [hagree k hkne]
              exact hwf k sub2 (List.mem_cons_of_mem _ hk))
          refine ⟨c', ?_, ?_, ?_, ?_⟩
          · simp only [populate_config, hpop]
            exact hok
          · intro k v hk hD2
            rcases List.mem_cons.1 hk with h1 | h1
            · -- the head key itself
              have hkk : k = k0 := congrArg Prod.fst h1
              have hvv : v = v0 := congrArg Prod.snd h1
              subst hkk
              subst hvv
              have hfin : lookup c' _ = lookup c1 _ := hnotin _ hk0t
              constructor
              · intro hn
                rw [hfin, hlk0, if_pos hn]
              · intro hn
                rw [hfin, hlk0, if_neg hn]
            · have hkne : k ≠ k0 := by
                intro he
                apply hnd.1
                rw [← he]
                exact List.mem_map.2 ⟨(k, v), h1, rfl⟩
              have hnull : nullAt c1 k ↔ nullAt c k := by
                unfold nullAt
                rw [hagree k hkne]
              obtain ⟨hs1, hs2⟩ := hscalar k v h1 hD2
              constructor
              · intro hn
                exact hs1 (hnull.2 hn)
              · intro hn
                rw [hs2 (fun hc => hn (hnull.1 hc)), hagree k hkne]
          · intro k sub2 hk d0 hld0
            rcases List.mem_cons.1 hk with h1 | h1
            · exfalso
              have : Val.vDict sub2 = v0 := congrArg Prod.snd h1
              rw [← this, Val.asDict?] at hD
              exact Option.noConfusion hD
            · have hkne : k ≠ k0 := by
                intro he
                apply hnd.1
                rw [← he]
                exact List.mem_map.2 ⟨(k, Val.vDict sub2), h1, rfl⟩
              refine hdict k sub2 h1 d0 ?_
              rw [hagree k hkne]
              exact hld0
          · intro k hk
            have hkne : k ≠ k0 := by
              intro he
              rw [he] at hk
              simp [lookup] at hk
            have hkt : lookup t k = none := by
              simpa [lookup, Ne.symm hkne] using hk
            rw [hnotin k hkt, hagree k hkne]

/-!
## Lemmas about strict mode
-/

theorem subMismatch_congr {d d1 sub : List (String × SVal)}
    (h : ∀ skv ∈ sub, lookup d1 skv.1 = lookup d skv.1) :
    subMismatch d1 sub = subMismatch d sub := by
  unfold subMismatch
  induction sub with
  | nil => rfl
  | cons skv sub ih =>
      simp only [List.any_cons, h skv (List.mem_cons_self _ _),
        ih (fun x hx => h x (List.mem_cons_of_mem _ hx))]

theorem hasSharedMismatch_congr {c c1 : Config} {t : Template}
    (h : ∀ kv ∈ t, lookup c1 kv.1 = lookup c kv.1) :
    hasSharedMismatch c1 t = hasSharedMismatch c t := by
  unfold hasSharedMismatch
  induction t with
  | nil => rfl
  | cons kv t ih =>
      simp only [List.any_cons, h kv (List.mem_cons_self _ _),
        ih (fun x hx => h x (List.mem_cons_of_mem _ hx))]

theorem subMismatch_cons (d : List (String × SVal)) (kk0 : String) (kv0 : SVal)
    (sub : List (String × SVal)) :
    subMismatch d ((kk0, kv0) :: sub)
      = ((match lookup d kk0 with
          | some w => w != SVal.sNone && !pyEqS w kv0
          | none => false) || subMismatch d sub) := rfl

theorem mergeKwargs_strict (key : String) {sub : List (String × SVal)}
    (hnd : (sub.map Prod.fst).Nodup) :
    ∀ d : List (String × SVal),
    (subMismatch d sub = true →
       ∃ kk sv, mergeKwargs true key d sub = .error (.conflictKw key kk sv)) ∧
    (subMismatch d sub = false →
       ∃ d', mergeKwargs true key d sub = .ok d') := by
  induction sub with
  | nil =>
      intro d
      constructor
      · intro h
        simp [subMismatch] at h
      · intro _
        exact ⟨d, rfl⟩
  | cons skv sub ih =>
      obtain ⟨kk0, kv0⟩ := skv
      simp only [List.map_cons, List.nodup_cons] at hnd
      intro d
      have hfill : ∀ h0 : SVal,
          lookup (setKey d kk0 h0) kk0 = some h0 := fun h0 => lookup_setKey_self d kk0 h0
      have hcg : ∀ h0 : SVal, subMismatch (setKey d kk0 h0) sub = subMismatch d sub := by
        intro h0
        refine subMismatch_congr ?_
        intro x hx
        have hxne : x.1 ≠ kk0 := by
          intro he
          apply hnd.1
          rw [← he]
          exact List.mem_map.2 ⟨x, hx, rfl⟩
        exact lookup_setKey_ne d h0 hxne
      cases hl : lookup d kk0 with
      | none =>
          have hhead :
              (match lookup d kk0 with
               | some w => w != SVal.sNone && !pyEqS w kv0
               | none => false) = false := by
            rw [hl]
          constructor
          · intro h
            rw [subMismatch_cons, hhead, Bool.false_or, ← hcg kv0] at h
            obtain ⟨kk, sv, he⟩ := ((ih hnd.2 (setKey d kk0 kv0)).1 h)
            refine ⟨kk, sv, ?_⟩
            simp only [mergeKwargs, hl]
            exact he
          · intro h
            rw [subMismatch_cons, hhead, Bool.false_or, ← hcg kv0] at h
            obtain ⟨d', he⟩ := ((ih hnd.2 (setKey d kk0 kv0)).2 h)
            refine ⟨d', ?_⟩
            simp only [mergeKwargs, hl]
            exact he
      | some w0 =>
          by_cases h0 : w0 = SVal.sNone
          · subst h0
            have hhead :
                (match lookup d kk0 with
                 | some w => w != SVal.sNone && !pyEqS w kv0
                 | none => false) = false := by
              rw [hl]
              simp
            constructor
            · intro h
              rw [subMismatch_cons, hhead, Bool.false_or, ← hcg kv0] at h
              obtain ⟨kk, sv, he⟩ := ((ih hnd.2 (setKey d kk0 kv0)).1 h)
              refine ⟨kk, sv, ?_⟩
              simp only [mergeKwargs, hl, if_pos rfl]
              exact he
            · intro h
              rw [subMismatch_cons, hhead, Bool.false_or, ← hcg kv0] at h
              obtain ⟨d', he⟩ := ((ih hnd.2 (setKey d kk0 kv0)).2 h)
              refine ⟨d', ?_⟩
              simp only [mergeKwargs, hl, if_pos rfl]
              exact he
          · by_cases h1 : pyEqS w0 kv0 = true
            · -- equal values: skipped in strict mode
              have hhead :
                  (match lookup d kk0 with
                   | some w => w != SVal.sNone && !pyEqS w kv0
                   | none => false) = false := by
                rw [hl]
                simp [h1]
              constructor
              · intro h
                rw [subMismatch_cons, hhead, Bool.false_or] at h
                obtain ⟨kk, sv, he⟩ := ((ih hnd.2 d).1 h)
                refine ⟨kk, sv, ?_⟩
                simp only [mergeKwargs, hl, if_neg h0, h1]
                simp only [Bool.not_true, Bool.false_and, Bool.false_eq_true, if_false]
                exact he
              · intro h
                rw [subMismatch_cons, hhead, Bool.false_or] at h
                obtain ⟨d', he⟩ := ((ih hnd.2 d).2 h)
                refine ⟨d', ?_⟩
                simp only [mergeKwargs, hl, if_neg h0, h1]
                simp only [Bool.not_true, Bool.false_and, Bool.false_eq_true, if_false]
                exact he
            · -- a genuine conflict: strict mode raises here
              have hne : pyEqS w0 kv0 = false := Bool.eq_false_iff.2 h1
              have hhead :
                  (match lookup d kk0 with
                   | some w => w != SVal.sNone && !pyEqS w kv0
                   | none => false) = true := by
                rw [hl]
                simp [h0, hne]
              constructor
              · intro _
                refine ⟨kk0, kv0, ?_⟩
                simp only [mergeKwargs, hl, if_neg h0, hne]
                simp only [Bool.not_false, Bool.true_and, if_true]
              · intro h
                rw [subMismatch_cons, hhead] at h
                simp at h

theorem hasSharedMismatch_cons (c : Config) (k0 : String) (v0 : Val) (t : Template) :
    hasSharedMismatch c ((k0, v0) :: t)
      = ((match v0.asDict? with
          | some sub =>
              match lookup c k0 with
              | some cv =>
                  match cv.asDict? with
                  | some d => subMismatch d sub
                  | none => false
              | none => false
          | none =>
              match lookup c k0 with
              | some w => w != Val.vNone && !pyEqV w v0
              | none => false) || hasSharedMismatch c t) := rfl

theorem populate_config_strict (t : Template) :
    ∀ c : Config, (t.map Prod.fst).Nodup →
    (∀ k sub, (k, Val.vDict sub) ∈ t → (sub.map Prod.fst).Nodup) →
    (∀ k sub, (k, Val.vDict sub) ∈ t → ∃ d, lookup c k = some (.vDict d)) →
    (hasSharedMismatch c t = true →
       ∃ e, populate_config c t true = .error e ∧ e.isConflict = true) ∧
    (hasSharedMismatch c t = false →
       ∃ c', populate_config c t true = .ok c') := by
  induction t with
  | nil =>
      intro c _ _ _
      constructor
      · intro h
        simp [hasSharedMismatch] at h
      · intro _
        exact ⟨c, rfl⟩
  | cons kv t ih =>
      intro c hnd hsubnd hwf
      obtain ⟨k0, v0⟩ := kv
      simp only [List.map_cons, List.nodup_cons] at hnd
      -- a successful, tail-lookup-preserving head step reduces the statement
      -- to the tail via the induction hypothesis
      have tailCase : ∀ c1 : Config, popOne true c (k0, v0) = .ok c1 →
          (∀ kv2 ∈ t, lookup c1 kv2.1 = lookup c kv2.1) →
          ((hasSharedMismatch c t = true →
              ∃ e, populate_config c ((k0, v0) :: t) true = .error e ∧
                e.isConflict = true) ∧
           (hasSharedMismatch c t = false →
              ∃ c', populate_config c ((k0, v0) :: t) true = .ok c')) := by
        intro c1 hpop hagree
        have hmm := hasSharedMismatch_congr hagree
        have hwf1 : ∀ k sub2, (k, Val.vDict sub2) ∈ t →
            ∃ dd, lookup c1 k = some (.vDict dd) := by
          intro k sub2 hk
          rw [hagree (k, Val.vDict sub2) hk]
          exact hwf k sub2 (List.mem_cons_of_mem _ hk)
        have ihc := ih c1 hnd.2
          (fun k s hk => hsubnd k s (List.mem_cons_of_mem _ hk)) hwf1
        constructor
        · intro htrue
          rw [← hmm] at htrue
          obtain ⟨e, he2, hec⟩ := ihc.1 htrue
          refine ⟨e, ?_, hec⟩
          simp only [populate_config, hpop]
          exact he2
        · intro hfalse
          rw [← hmm] at hfalse
          obtain ⟨c', hc'⟩ := ihc.2 hfalse
          refine ⟨c', ?_⟩
          simp only [populate_config, hpop]
          exact hc'
      cases hD : v0.asDict? with
      | some sub =>
          have hv0 : v0 = .vDict sub := val_asDict_eq_some.1 hD
          subst hv0
          have hmem0 : (k0, Val.vDict sub) ∈ (k0, Val.vDict sub) :: t :=
            List.mem_cons_self _ _
          obtain ⟨d, hld⟩ := hwf k0 sub hmem0
          have hhead : hasSharedMismatch c ((k0, Val.vDict sub) :: t)
              = (subMismatch d sub || hasSharedMismatch c t) := by
            simp only [hasSharedMismatch_cons, Val.asDict?, hld]
          cases hsm : subMismatch d sub with
          | true =>
              obtain ⟨kk, sv, he⟩ :=
                (mergeKwargs_strict k0 (hsubnd k0 sub hmem0) d).1 hsm
              have hpop : popOne true c (k0, Val.vDict sub)
                  = .error (.conflictKw k0 kk sv) := by
                simp only [popOne, Val.asDict?, hld, he]
              constructor
              · intro _
                refine ⟨.conflictKw k0 kk sv, ?_, rfl⟩
                simp only [populate_config, hpop]
              · intro hfalse
                rw [hhead, hsm] at hfalse
                simp at hfalse
          | false =>
              obtain ⟨d', he⟩ :=
                (mergeKwargs_strict k0 (hsubnd k0 sub hmem0) d).2 hsm
              have hpop : popOne true c (k0, Val.vDict sub)
                  = .ok (setKey c k0 (.vDict d')) := by
                simp only [popOne, Val.asDict?, hld, he]
              have hagree : ∀ kv2 ∈ t,
                  lookup (setKey c k0 (.vDict d')) kv2.1 = lookup c kv2.1 := by
                intro kv2 hkv2
                have hne : kv2.1 ≠ k0 := by
                  intro he2
                  apply hnd.1
                  rw [← he2]
                  exact List.mem_map.2 ⟨kv2, hkv2, rfl⟩
                exact lookup_setKey_ne c _ hne
              rw [hhead, hsm, Bool.false_or]
              exact tailCase _ hpop hagree
      | none =>
          have hhead : hasSharedMismatch c ((k0, v0) :: t)
              = ((match lookup c k0 with
                  | some w => w != Val.vNone && !pyEqV w v0
                  | none => false) || hasSharedMismatch c t) := by
            simp only [hasSharedMismatch_cons, hD]
          cases hl : lookup c k0 with
          | none =>
              have hpop : popOne true c (k0, v0) = .ok (setKey c k0 v0) := by
                simp only [popOne, hD, hl]
              have hagree : ∀ kv2 ∈ t,
                  lookup (setKey c k0 v0) kv2.1 = lookup c kv2.1 := by
                intro kv2 hkv2
                have hne : kv2.1 ≠ k0 := by
                  intro he2
                  apply hnd.1
                  rw [← he2]
                  exact List.mem_map.2 ⟨kv2, hkv2, rfl⟩
                exact lookup_setKey_ne c _ hne
              rw [hhead, hl, Bool.false_or]
              exact tailCase _ hpop hagree
          | some w =>
              by_cases hw : w = Val.vNone
              · subst hw
                have hpop : popOne true c (k0, v0) = .ok (setKey c k0 v0) := by
                  simp [popOne, hD, hl]
                have hagree : ∀ kv2 ∈ t,
                    lookup (setKey c k0 v0) kv2.1 = lookup c kv2.1 := by
                  intro kv2 hkv2
                  have hne : kv2.1 ≠ k0 := by
                    intro he2
                    apply hnd.1
                    rw [← he2]
                    exact List.mem_map.2 ⟨kv2, hkv2, rfl⟩
                  exact lookup_setKey_ne c _ hne
                rw [hhead, hl]
                simp only [bne_self_eq_false, Bool.false_and, Bool.false_or]
                exact tailCase _ hpop hagree
              · by_cases h1 : pyEqV w v0 = true
                · -- values agree under Python ==: the key is skipped
                  have hpop : popOne true c (k0, v0) = .ok c := by
                    simp only [popOne, hD, hl, if_neg hw, h1]
                    simp only [Bool.not_true, Bool.false_and, Bool.false_eq_true,
                      if_false]
                  have hagree : ∀ kv2 ∈ t, lookup c kv2.1 = lookup c kv2.1 :=
                    fun _ _ => rfl
                  rw [hhead, hl]
                  simp only [h1, Bool.not_true, Bool.and_false, Bool.false_or]
                  exact tailCase _ hpop hagree
                · -- a genuine top-level conflict
                  have hne : pyEqV w v0 = false := Bool.eq_false_iff.2 h1
                  have hpop : popOne true c (k0, v0) = .error (.conflict k0 v0) := by
                    simp only [popOne, hD, hl, if_neg hw, hne]
                    simp only [Bool.not_false, Bool.true_and, if_true]
                  constructor
                  · intro _
                    refine ⟨.conflict k0 v0, ?_, rfl⟩
                    simp only [populate_config, hpop]
                  · intro hfalse
                    rw [hhead, hl] at hfalse
                    simp only [hne, Bool.not_false, Bool.and_true,
                      Bool.or_eq_false_iff] at hfalse
                    have hwn : w = Val.vNone := by simpa using hfalse.1
                    exact absurd hwn hw

theorem wfTemplate_spec {c : Config} {t : Template} (h : wfTemplate c t = true) :
    (∀ k sub, (k, Val.vDict sub) ∈ t → (sub.map Prod.fst).Nodup) ∧
    (∀ k sub, (k, Val.vDict sub) ∈ t → ∃ d, lookup c k = some (.vDict d)) := by
  have hall := List.all_eq_true.1 h
  constructor
  · intro k sub hk
    have hh := hall (k, Val.vDict sub) hk
    simp only [Val.asDict?, Bool.and_eq_true, decide_eq_true_eq] at hh
    exact hh.1
  · intro k sub hk
    have hh := hall (k, Val.vDict sub) hk
    simp only [Val.asDict?, Bool.and_eq_true, decide_eq_true_eq] at hh
    rcases hh with ⟨_, h2⟩
    cases hl : lookup c k with
    | none =>
        rw [hl] at h2
        exact Bool.noConfusion h2
    | some cv =>
        rw [hl] at h2
        cases cv with
        | vDict d => exact ⟨d, rfl⟩
        | vNone => simp [Val.asDict?] at h2
        | vBool b => simp [Val.asDict?] at h2
        | vInt n => simp [Val.asDict?] at h2
        | vRat q => simp [Val.asDict?] at h2
        | vStr s => simp [Val.asDict?] at h2
        | vStrList l => simp [Val.asDict?] at h2

/-!
## Claims C1, C2, C3: `populate_config`
-/

/-- C1 (counterexample): the claim says `populate_config(C, T)` fills
*every* key of `T` that is absent from `C` with `T`'s value; but for a
template key holding a nested kwargs dict that is absent from `C`, the code
evaluates `d_config[key]` (line 130) and raises a `KeyError` instead of
filling anything. -/
theorem claim_C1_cex :
    populate_config []
      [("loader_kwargs", Val.vDict [("num_workers", SVal.sInt 4)])] false
      = .error .keyError := rfl

/-- C1 (amended): provided every template key holding a nested kwargs dict
is mapped by the config to a kwargs dict (with distinct sub-keys, as for a
Python dict), `populate_config(C, T)` succeeds and fills every key of `T`
that is absent from `C` or null in `C` with `T`'s value; a template key
holding a nested dict is merged sub-key by sub-key (a sub-key is filled
exactly when absent or null in `C`'s dict, other sub-keys keep their
values) rather than the whole nested group being replaced, and keys not in
`T` are untouched. -/
theorem claim_C1_fill (c : Config) (t : Template)
    (hnd : (t.map Prod.fst).Nodup) (hwf : wfTemplate c t = true) :
    ∃ c', populate_config c t false = .ok c' ∧
      (∀ k v, (k, v) ∈ t → v.asDict? = none →
         (nullAt c k → lookup c' k = some v) ∧
         (¬ nullAt c k → lookup c' k = lookup c k)) ∧
      (∀ k sub, (k, Val.vDict sub) ∈ t →
         ∀ d, lookup c k = some (.vDict d) →
           ∃ d', lookup c' k = some (.vDict d') ∧
             (∀ kk sv, lookup sub kk = some sv →
                (nullAtS d kk → lookup d' kk = some sv) ∧
                (¬ nullAtS d kk → lookup d' kk = lookup d kk)) ∧
             (∀ kk, lookup sub kk = none → lookup d' kk = lookup d kk)) ∧
      (∀ k, lookup t k = none → lookup c' k = lookup c k) :=
  populate_config_char t c hnd (wfTemplate_spec hwf).1 (wfTemplate_spec hwf).2

/-- Witness for C1: a concrete config and template with a scalar fill, a
skipped non-null scalar, and a sub-key-wise kwargs merge. -/
theorem claim_C1_witness :
    ∃ c', populate_config
        [("a", Val.vNone), ("k", Val.vDict [("x", SVal.sNone), ("y", SVal.sInt 2)])]
        [("a", Val.vInt 3), ("b", Val.vStr "s"),
         ("k", Val.vDict [("x", SVal.sInt 7), ("z", SVal.sInt 1)])] false = .ok c' ∧
      (∀ k v, (k, v) ∈ [("a", Val.vInt 3), ("b", Val.vStr "s"),
           ("k", Val.vDict [("x", SVal.sInt 7), ("z", SVal.sInt 1)])] →
         v.asDict? = none →
         (nullAt [("a", Val.vNone),
             ("k", Val.vDict [("x", SVal.sNone), ("y", SVal.sInt 2)])] k →
           lookup c' k = some v) ∧
         (¬ nullAt [("a", Val.vNone),
             ("k", Val.vDict [("x", SVal.sNone), ("y", SVal.sInt 2)])] k →
           lookup c' k = lookup [("a", Val.vNone),
             ("k", Val.vDict [("x", SVal.sNone), ("y", SVal.sInt 2)])] k)) ∧
      (∀ k sub, (k, Val.vDict sub) ∈ [("a", Val.vInt 3), ("b", Val.vStr "s"),
           ("k", Val.vDict [("x", SVal.sInt 7), ("z", SVal.sInt 1)])] →
         ∀ d, lookup [("a", Val.vNone),
             ("k", Val.vDict [("x", SVal.sNone), ("y", SVal.sInt 2)])] k
             = some (.vDict d) →
           ∃ d', lookup c' k = some (.vDict d') ∧
             (∀ kk sv, lookup sub kk = some sv →
                (nullAtS d kk → lookup d' kk = some sv) ∧
                (¬ nullAtS d kk → lookup d' kk = lookup d kk)) ∧
             (∀ kk, lookup sub kk = none → lookup d' kk = lookup d kk)) ∧
      (∀ k, lookup [("a", Val.vInt 3), ("b", Val.vStr "s"),
           ("k", Val.vDict [("x", SVal.sInt 7), ("z", SVal.sInt 1)])] k = none →
         lookup c' k = lookup [("a", Val.vNone),
           ("k", Val.vDict [("x", SVal.sNone), ("y", SVal.sInt 2)])] k) :=
  claim_C1_fill _ _ (by decide) (by decide)

/-- C2 (counterexample): the claim says non-strict `populate_config(C, T)`
never changes a field already non-null in `C`; but a field holding a
(non-null) kwargs dict is changed in place by merging template sub-keys
into it. -/
theorem claim_C2_cex :
    populate_config [("loader_kwargs", Val.vDict [])]
        [("loader_kwargs", Val.vDict [("num_workers", SVal.sInt 4)])] false
      = .ok [("loader_kwargs", Val.vDict [("num_workers", SVal.sInt 4)])] ∧
    Val.vDict ([] : List (String × SVal)) ≠ Val.vNone ∧
    Val.vDict [("num_workers", SVal.sInt 4)] ≠ Val.vDict [] :=
  ⟨rfl, by decide, by decide⟩

/-- C2 (amended): non-strict `populate_config(C, T)` never replaces the
value of an already non-null scalar field, and inside a kwargs-dict field
it never replaces an already non-null sub-value (the dict itself may gain
or fill sub-keys); and it is idempotent:
`populate_config(populate_config(C,T), T) = populate_config(C,T)`. -/
theorem claim_C2_no_overwrite_idem (c : Config) (t : Template) (c' : Config)
    (hnd : (t.map Prod.fst).Nodup)
    (h : populate_config c t false = .ok c') :
    (∀ k v, lookup c k = some v → v ≠ .vNone → (∀ d, v ≠ .vDict d) →
       lookup c' k = some v) ∧
    (∀ k d, lookup c k = some (.vDict d) →
       ∃ d', lookup c' k = some (.vDict d') ∧
         ∀ kk w, lookup d kk = some w → w ≠ .sNone → lookup d' kk = some w) ∧
    populate_config c' t false = .ok c' :=
  ⟨fun _ _ hv hn hd => populate_config_preserve_scalar h hv hn hd,
   fun _ _ hv => populate_config_preserve_dict h hv,
   populate_config_idem hnd h⟩

/-- Witness for C2 at a concrete config and template. -/
theorem claim_C2_witness :
    (∀ k v, lookup [("a", Val.vInt 1), ("k", Val.vDict [("x", SVal.sInt 2)])] k
          = some v → v ≠ .vNone → (∀ d, v ≠ .vDict d) →
       lookup [("a", Val.vInt 1),
         ("k", Val.vDict [("x", SVal.sInt 2), ("y", SVal.sInt 3)])] k = some v) ∧
    (∀ k d, lookup [("a", Val.vInt 1), ("k", Val.vDict [("x", SVal.sInt 2)])] k
          = some (.vDict d) →
       ∃ d', lookup [("a", Val.vInt 1),
           ("k", Val.vDict [("x", SVal.sInt 2), ("y", SVal.sInt 3)])] k
           = some (.vDict d') ∧
         ∀ kk w, lookup d kk = some w → w ≠ .sNone → lookup d' kk = some w) ∧
    populate_config [("a", Val.vInt 1),
        ("k", Val.vDict [("x", SVal.sInt 2), ("y", SVal.sInt 3)])]
      [("a", Val.vInt 9), ("k", Val.vDict [("x", SVal.sNone), ("y", SVal.sInt 3)])]
      false
      = .ok [("a", Val.vInt 1),
             ("k", Val.vDict [("x", SVal.sInt 2), ("y", SVal.sInt 3)])] :=
  claim_C2_no_overwrite_idem
    [("a", Val.vInt 1), ("k", Val.vDict [("x", SVal.sInt 2)])]
    [("a", Val.vInt 9), ("k", Val.vDict [("x", SVal.sNone), ("y", SVal.sInt 3)])]
    [("a", Val.vInt 1), ("k", Val.vDict [("x", SVal.sInt 2), ("y", SVal.sInt 3)])]
    (by decide) rfl

/-- C3 (counterexample): the claim says strict mode raises exactly when a
shared key's values differ; here the shared key `k` holds `None` in the
config and `5` in the template — the values differ, yet the code fills the
key and returns normally instead of raising. -/
theorem claim_C3_cex :
    populate_config [("k", Val.vNone)] [("k", Val.vInt 5)] true
      = .ok [("k", Val.vInt 5)] ∧ Val.vNone ≠ Val.vInt 5 :=
  ⟨rfl, by decide⟩

/-- C3 (amended): for a well-formed template, strict-mode
`populate_config(C, T, force_compatibility=True)` raises a conflict
`ValueError` if and only if some key shared by `C` and `T` holds, non-null
in `C`, a value differing from `T`'s (sub-key-wise for nested kwargs
dicts); when there is no such mismatch it returns normally. -/
theorem claim_C3_strict_iff (c : Config) (t : Template)
    (hnd : (t.map Prod.fst).Nodup) (hwf : wfTemplate c t = true) :
    ((∃ e, populate_config c t true = .error e ∧ e.isConflict = true) ↔
       hasSharedMismatch c t = true) ∧
    (hasSharedMismatch c t = false → ∃ c', populate_config c t true = .ok c') := by
  have hps := populate_config_strict t c hnd
    (wfTemplate_spec hwf).1 (wfTemplate_spec hwf).2
  refine ⟨⟨?_, hps.1⟩, hps.2⟩
  rintro ⟨e, he, _⟩
  cases hsm : hasSharedMismatch c t with
  | true => rfl
  | false =>
      obtain ⟨c', hc'⟩ := hps.2 hsm
      rw [hc'] at he
      exact Except.noConfusion he

/-- Witness for C3 at a concrete mismatching config and template. -/
theorem claim_C3_witness :
    ((∃ e, populate_config [("k", Val.vInt 2)] [("k", Val.vInt 5)] true
        = .error e ∧ e.isConflict = true) ↔
       hasSharedMismatch [("k", Val.vInt 2)] [("k", Val.vInt 5)] = true) ∧
    (hasSharedMismatch [("k", Val.vInt 2)] [("k", Val.vInt 5)] = false →
       ∃ c', populate_config [("k", Val.vInt 2)] [("k", Val.vInt 5)] true
         = .ok c') :=
  claim_C3_strict_iff [("k", Val.vInt 2)] [("k", Val.vInt 5)]
    (by decide) (by decide)

/-!
## Lemmas for the DeepCORAL objective
-/

theorem choose_two_rat (n : ℕ) :
    ((n.choose 2 : ℕ) : Rat) = ((n * (n - 1) : ℕ) : Rat) / 2 := by
  rw [Nat.choose_two_right,
    Nat.cast_div (Nat.even_mul_pred_self n).two_dvd (by norm_num)]
  norm_num

theorem getD_map_of_lt {α β : Type} (f : α → β) (l : List α) (i : ℕ) (d : β)
    (d' : α) (h : i < l.length) : (l.map f).getD i d = f (l.getD i d') := by
  rw [List.getD_eq_getElem?_getD, List.getD_eq_getElem?_getD, List.getElem?_map,
    List.getElem?_eq_getElem h]
  rfl

theorem pairSum_to_filter (total : ℕ) (F : ℕ → List (List Rat))
    (G : List (List (List Rat)))
    (hF : ∀ i, i < total → F i = G.getD i []) :
    (∑ i ∈ Finset.range total, ∑ j ∈ Finset.Ico (i + 1) total,
       DeepCORAL.coral_penalty (F i) (F j))
      = ∑ p ∈ (Finset.range total ×ˢ Finset.range total).filter
            (fun p => p.1 < p.2),
          DeepCORAL.coral_penalty (G.getD p.1 []) (G.getD p.2 []) := by
  rw [Finset.sum_filter, Finset.sum_product' (Finset.range total)
    (Finset.range total)
    (fun i j => if i < j then
      DeepCORAL.coral_penalty (G.getD i []) (G.getD j []) else 0)]
  apply Finset.sum_congr rfl
  intro i hi
  rw [Finset.mem_range] at hi
  have hico : Finset.Ico (i + 1) total
      = (Finset.range total).filter (fun j => i < j) := by
    ext j
    simp only [Finset.mem_Ico, Finset.mem_range, Finset.mem_filter]
    omega
  rw [hico, Finset.sum_filter]
  apply Finset.sum_congr rfl
  intro j hj
  rw [Finset.mem_range] at hj
  by_cases hij : i < j
  · rw [if_pos hij, if_pos hij, hF i hi, hF j hj]
  · rw [if_neg hij, if_neg hij]

theorem pairSum_zero_of_le_one (total : ℕ) (F : ℕ → List (List Rat))
    (h : total ≤ 1) :
    (∑ i ∈ Finset.range total, ∑ j ∈ Finset.Ico (i + 1) total,
       DeepCORAL.coral_penalty (F i) (F j)) = 0 := by
  match total, h with
  | 0, _ => simp
  | 1, _ => simp

theorem split_into_groups_len (g : List Nat) :
    (DeepCORAL.split_into_groups g).2.length
      = (DeepCORAL.split_into_groups g).1.length := by
  simp [DeepCORAL.split_into_groups]

theorem selection_append_eq (lf uf : List (List Rat))
    (gidx ugidx : List (List Nat)) (i : ℕ) :
    i < gidx.length + ugidx.length →
    DeepCORAL.selectRows (if i < gidx.length then lf else uf)
        ((gidx ++ ugidx).getD i [])
      = ((gidx.map (DeepCORAL.selectRows lf))
          ++ (ugidx.map (DeepCORAL.selectRows uf))).getD i [] := by
  intro hi
  by_cases h : i < gidx.length
  · rw [if_pos h, List.getD_eq_getElem?_getD, List.getD_eq_getElem?_getD,
      List.getElem?_append, if_pos h, List.getElem?_append,
      if_pos (by simpa using h), List.getElem?_map,
      List.getElem?_eq_getElem h]
    rfl
  · have hle : gidx.length ≤ i := Nat.le_of_not_lt h
    have hlt : i - gidx.length < ugidx.length := by omega
    rw [if_neg h, List.getD_eq_getElem?_getD, List.getD_eq_getElem?_getD,
      List.getElem?_append_right hle,
      List.getElem?_append_right (by simpa using hle), List.getElem?_map]
    simp only [List.length_map]
    rw [List.getElem?_eq_getElem hlt]
    rfl

theorem penalty_mean_eq (total : ℕ) (S : Rat) (hS : total ≤ 1 → S = 0) :
    (if 1 < total then S / (((total * (total - 1) : ℕ) : Rat) / 2) else S)
      = S / ((total.choose 2 : ℕ) : Rat) := by
  by_cases h : 1 < total
  · rw [if_pos h, choose_two_rat]
  · rw [if_neg h, hS (Nat.le_of_not_lt h), zero_div]

/-!
## Claims C4, C5, C6, C10: the DeepCORAL objective
-/

/-- C6: `coral_penalty(x, y)` returns 0 for identical inputs with at least
two rows: the column means and the sample covariance matrices coincide, so
both squared-difference means vanish. -/
theorem claim_C6_coral_penalty_self (x y : List (List Rat)) (hxy : x = y)
    (h2 : 2 ≤ x.length) : DeepCORAL.coral_penalty x y = 0 := by
  subst hxy
  simp only [DeepCORAL.coral_penalty, sub_self]
  have hz : ∀ w : ℕ, ((List.range w).map (fun _ => (0 : Rat) ^ 2)).sum = 0 := by
    intro w
    apply List.sum_eq_zero
    intro a ha
    obtain ⟨j, _, hj⟩ := List.mem_map.1 ha
    rw [← hj]
    ring
  simp [DeepCORAL.vecMean, DeepCORAL.matMean, hz, List.sum_eq_zero]

/-- Witness for C6 at a concrete two-row matrix. -/
theorem claim_C6_witness :
    2 ≤ ([[(1 : Rat)], [2]] : List (List Rat)).length ∧
    DeepCORAL.coral_penalty [[(1 : Rat)], [2]] [[(1 : Rat)], [2]] = 0 :=
  ⟨by decide, claim_C6_coral_penalty_self [[(1 : Rat)], [2]] [[(1 : Rat)], [2]]
    rfl (by decide)⟩

/-- C5: in evaluation mode the objective is exactly the base supervised
loss (`base_loss + 0`), whatever the groups are: the penalty is set to 0
and never computed from the batch.  (The results mapping must contain the
`features` key, as every mapping produced by `process_batch` does;
otherwise `results.pop('features')` raises a `KeyError`.) -/
theorem claim_C5_eval_mode (loss : List Rat → List Rat → Rat) (w : Rat)
    (r : DeepCORAL.CoralResults) (lf : List (List Rat))
    (hf : r.features = some lf) :
    DeepCORAL.objective loss w false r
      = .ok (loss r.y_pred r.y_true,
             { r with features := none, penalty := some 0 }) := by
  simp [DeepCORAL.objective, hf]

/-- Witness for C5 at a concrete results mapping. -/
theorem claim_C5_witness :
    DeepCORAL.objective (fun _ _ => (10 : Rat)) 2 false
        { g := [0, 0, 1, 1], y_true := [0, 1, 0, 1], y_pred := [0, 0, 0, 0],
          metadata := [], features := some [[1], [2], [3], [5]],
          unlabeled_features := some [[0], [4]], unlabeled_g := some [7, 7],
          penalty := none }
      = .ok ((10 : Rat),
             { g := [0, 0, 1, 1], y_true := [0, 1, 0, 1], y_pred := [0, 0, 0, 0],
               metadata := [], features := none,
               unlabeled_features := some [[0], [4]], unlabeled_g := some [7, 7],
               penalty := some 0 }) :=
  claim_C5_eval_mode (fun _ _ => (10 : Rat)) 2
    { g := [0, 0, 1, 1], y_true := [0, 1, 0, 1], y_pred := [0, 0, 0, 0],
      metadata := [], features := some [[1], [2], [3], [5]],
      unlabeled_features := some [[0], [4]], unlabeled_g := some [7, 7],
      penalty := none }
    [[1], [2], [3], [5]] rfl

/-- C10: `objective` removes the `features` key (and, in training mode,
the `unlabeled_features` key when present), adds a `penalty` key holding
the computed penalty value, and leaves `g`, `y_true`, `y_pred`, `metadata`
and `unlabeled_g` unchanged; the returned objective is
`base_loss + penalty * penalty_weight`. -/
theorem claim_C10_frame_effect (loss : List Rat → List Rat → Rat) (w : Rat)
    (tr : Bool) (r : DeepCORAL.CoralResults) (lf : List (List Rat))
    (hf : r.features = some lf)
    (hug : tr = true → r.unlabeled_features.isSome → r.unlabeled_g.isSome) :
    ∃ p r2, DeepCORAL.objective loss w tr r
        = .ok (loss r.y_pred r.y_true + p * w, r2) ∧
      r2.g = r.g ∧ r2.y_true = r.y_true ∧ r2.y_pred = r.y_pred ∧
      r2.metadata = r.metadata ∧ r2.unlabeled_g = r.unlabeled_g ∧
      r2.features = none ∧ r2.penalty = some p ∧
      (tr = true → r.unlabeled_features.isSome → r2.unlabeled_features = none) ∧
      (tr = false → r2.unlabeled_features = r.unlabeled_features) := by
  obtain ⟨gg, yt, yp, md, feat, ufo, ugo, pen⟩ := r
  simp only at hf hug
  subst hf
  cases tr with
  | false =>
      exact ⟨0, ⟨gg, yt, yp, md, none, ufo, ugo, some 0⟩, rfl, rfl, rfl, rfl, rfl,
        rfl, rfl, rfl, fun h _ => Bool.noConfusion h, fun _ => rfl⟩
  | true =>
      cases ufo with
      | none =>
          exact ⟨_, ⟨gg, yt, yp, md, none, none, ugo, some _⟩, rfl, rfl, rfl, rfl,
            rfl, rfl, rfl, rfl, fun _ hs => Bool.noConfusion hs,
            fun h => Bool.noConfusion h⟩
      | some uf =>
          obtain ⟨ug, hug2⟩ := Option.isSome_iff_exists.1
            (hug rfl (by simp))
          subst hug2
          exact ⟨_, ⟨gg, yt, yp, md, none, none, some ug, some _⟩, rfl, rfl, rfl,
            rfl, rfl, rfl, rfl, rfl, fun _ _ => rfl, fun h => Bool.noConfusion h⟩

/-- C4: in training mode `objective` splits the batch into groups by group
identifier (with the unlabeled groups appended when unlabeled features are
present), sums the symmetric pairwise CORAL penalty over every unordered
pair of the n groups, divides by C(n, 2) to obtain the mean, and returns
`base_loss + penalty_weight * mean_penalty` (storing the mean in the
results).  `split_into_groups` is modelled from the spec, the function
itself living outside the provided sources. -/
theorem claim_C4_objective_training (loss : List Rat → List Rat → Rat) (w : Rat)
    (r : DeepCORAL.CoralResults) (lf : List (List Rat))
    (hf : r.features = some lf)
    (hug : r.unlabeled_features.isSome → r.unlabeled_g.isSome) :
    ∃ P, DeepCORAL.objective loss w true r
        = .ok (loss r.y_pred r.y_true + P * w,
               { r with features := none, unlabeled_features := none,
                        penalty := some P }) ∧
      P = (∑ p ∈ (Finset.range (DeepCORAL.groupFeats lf r.unlabeled_features
                r.unlabeled_g r.g).length
              ×ˢ Finset.range (DeepCORAL.groupFeats lf r.unlabeled_features
                r.unlabeled_g r.g).length).filter (fun p => p.1 < p.2),
            DeepCORAL.coral_penalty
              ((DeepCORAL.groupFeats lf r.unlabeled_features
                  r.unlabeled_g r.g).getD p.1 [])
              ((DeepCORAL.groupFeats lf r.unlabeled_features
                  r.unlabeled_g r.g).getD p.2 []))
          / (((DeepCORAL.groupFeats lf r.unlabeled_features
                r.unlabeled_g r.g).length.choose 2 : ℕ) : Rat) := by
  obtain ⟨gg, yt, yp, md, feat, ufo, ugo, pen⟩ := r
  simp only at hf hug
  subst hf
  cases ufo with
  | none =>
      refine ⟨_, rfl, ?_⟩
      simp only [DeepCORAL.groupFeats, DeepCORAL.pairPenaltySum]
      have hglen : (DeepCORAL.split_into_groups gg).2.length
          = (DeepCORAL.split_into_groups gg).1.length := split_into_groups_len gg
      have hGlen : ((DeepCORAL.split_into_groups gg).2.map
            (DeepCORAL.selectRows lf)).length
          = (DeepCORAL.split_into_groups gg).1.length := by
        rw [List.length_map, hglen]
      rw [hGlen]
      have hF : ∀ i, i < (DeepCORAL.split_into_groups gg).1.length →
          DeepCORAL.selectRows
              (if i < (DeepCORAL.split_into_groups gg).1.length then lf else [])
              ((DeepCORAL.split_into_groups gg).2.getD i [])
            = ((DeepCORAL.split_into_groups gg).2.map
                (DeepCORAL.selectRows lf)).getD i [] := by
        intro i hi
        rw [if_pos hi,
          getD_map_of_lt (DeepCORAL.selectRows lf)
            (DeepCORAL.split_into_groups gg).2 i [] [] (by rw [hglen]; exact hi)]
      rw [pairSum_to_filter _ _ _ hF]
      exact penalty_mean_eq _ _ (fun h => by
        rw [← pairSum_to_filter _ _ _ hF]
        exact pairSum_zero_of_le_one _ _ h)
  | some uf =>
      obtain ⟨ug, hug2⟩ := Option.isSome_iff_exists.1 (hug (by simp))
      subst hug2
      refine ⟨_, rfl, ?_⟩
      simp only [DeepCORAL.groupFeats, DeepCORAL.pairPenaltySum]
      have hglen : (DeepCORAL.split_into_groups gg).2.length
          = (DeepCORAL.split_into_groups gg).1.length := split_into_groups_len gg
      have huglen : (DeepCORAL.split_into_groups ug).2.length
          = (DeepCORAL.split_into_groups ug).1.length := split_into_groups_len ug
      have hGlen : ((DeepCORAL.split_into_groups gg).2.map
              (DeepCORAL.selectRows lf)
            ++ (DeepCORAL.split_into_groups ug).2.map
              (DeepCORAL.selectRows uf)).length
          = (DeepCORAL.split_into_groups gg).1.length
            + (DeepCORAL.split_into_groups ug).1.length := by
        rw [List.length_append, List.length_map, List.length_map, hglen, huglen]
      rw [hGlen]
      have hF : ∀ i, i < (DeepCORAL.split_into_groups gg).1.length
            + (DeepCORAL.split_into_groups ug).1.length →
          DeepCORAL.selectRows
              (if i < (DeepCORAL.split_into_groups gg).1.length then lf else uf)
              (((DeepCORAL.split_into_groups gg).2
                ++ (DeepCORAL.split_into_groups ug).2).getD i [])
            = ((DeepCORAL.split_into_groups gg).2.map (DeepCORAL.selectRows lf)
                ++ (DeepCORAL.split_into_groups ug).2.map
                  (DeepCORAL.selectRows uf)).getD i [] := by
        intro i hi
        have hsel := selection_append_eq lf uf (DeepCORAL.split_into_groups gg).2
          (DeepCORAL.split_into_groups ug).2 i (by rw [hglen, huglen]; exact hi)
        rw [hglen] at hsel
        exact hsel
      rw [pairSum_to_filter _ _ _ hF]
      exact penalty_mean_eq _ _ (fun h => by
        rw [← pairSum_to_filter _ _ _ hF]
        exact pairSum_zero_of_le_one _ _ h)

/-- Witness for C4: two labeled groups plus one unlabeled group. -/
theorem claim_C4_witness :
    ∃ P, DeepCORAL.objective (fun _ _ => (10 : Rat)) 2 true
        { g := [0, 0, 1, 1], y_true := [0, 1, 0, 1], y_pred := [0, 0, 0, 0],
          metadata := [], features := some [[1], [2], [3], [5]],
          unlabeled_features := some [[0], [4]], unlabeled_g := some [7, 7],
          penalty := none }
        = .ok ((10 : Rat) + P * 2,
               { g := [0, 0, 1, 1], y_true := [0, 1, 0, 1], y_pred := [0, 0, 0, 0],
                 metadata := [], features := none, unlabeled_features := none,
                 unlabeled_g := some [7, 7], penalty := some P }) ∧
      P = (∑ p ∈ (Finset.range (DeepCORAL.groupFeats [[1], [2], [3], [5]]
                (some [[0], [4]]) (some [7, 7]) [0, 0, 1, 1]).length
              ×ˢ Finset.range (DeepCORAL.groupFeats [[1], [2], [3], [5]]
                (some [[0], [4]]) (some [7, 7]) [0, 0, 1, 1]).length).filter
                (fun p => p.1 < p.2),
            DeepCORAL.coral_penalty
              ((DeepCORAL.groupFeats [[1], [2], [3], [5]]
                  (some [[0], [4]]) (some [7, 7]) [0, 0, 1, 1]).getD p.1 [])
              ((DeepCORAL.groupFeats [[1], [2], [3], [5]]
                  (some [[0], [4]]) (some [7, 7]) [0, 0, 1, 1]).getD p.2 []))
          / (((DeepCORAL.groupFeats [[1], [2], [3], [5]]
                (some [[0], [4]]) (some [7, 7]) [0, 0, 1, 1]).length.choose 2 : ℕ)
              : Rat) :=
  claim_C4_objective_training (fun _ _ => (10 : Rat)) 2
    { g := [0, 0, 1, 1], y_true := [0, 1, 0, 1], y_pred := [0, 0, 0, 0],
      metadata := [], features := some [[1], [2], [3], [5]],
      unlabeled_features := some [[0], [4]], unlabeled_g := some [7, 7],
      penalty := none }
    [[1], [2], [3], [5]] rfl (fun _ => by simp)

/-!
## Lemmas about the preset cascade of `populate_defaults`
-/

theorem preserves_of_cases {f : Config → Except CfgErr Config}
    (hcase : ∀ c c', f c = .ok c' →
      (∃ t, populate_config c t false = .ok c') ∨ c' = c) :
    PreservesNonNull f := by
  intro c c' h
  rcases hcase c c' h with ⟨t, ht⟩ | rfl
  · exact ⟨fun _ _ hv hn hd => populate_config_preserve_scalar ht hv hn hd,
           fun _ _ hv => populate_config_preserve_dict ht hv⟩
  · exact ⟨fun _ _ hv _ _ => hv, fun _ d hv => ⟨d, hv, fun _ _ hw _ => hw⟩⟩

theorem preserves_comp {f : Config → Except CfgErr Config}
    {g : Config → Except CfgErr Config}
    (hf : PreservesNonNull f) (hg : PreservesNonNull g) :
    PreservesNonNull (fun c => eseq (f c) g) := by
  intro c c' h
  cases hfc : f c with
  | error e =>
      simp only [hfc, eseq] at h
      exact Except.noConfusion h
  | ok c1 =>
      simp only [hfc, eseq] at h
      obtain ⟨hs1, hd1⟩ := hf c c1 hfc
      obtain ⟨hs2, hd2⟩ := hg c1 c' h
      refine ⟨fun k v hv hn hd => hs2 k v (hs1 k v hv hn hd) hn hd, ?_⟩
      intro k d hv
      obtain ⟨d1, hld1, hp1⟩ := hd1 k d hv
      obtain ⟨d2, hld2, hp2⟩ := hd2 k d1 hld1
      exact ⟨d2, hld2, fun kk w hw hwn => hp2 kk w (hp1 kk w hw hwn) hwn⟩

theorem stageDataset_cases {tb : Tables} {c c' : Config}
    (h : stageDataset tb c = .ok c') :
    (∃ t, populate_config c t false = .ok c') ∨ c' = c := by
  unfold stageDataset at h
  cases hg : getattrE c "dataset" with
  | error e =>
      simp only [hg, eseq] at h
      exact Except.noConfusion h
  | ok d =>
      simp only [hg, eseq] at h
      cases ht : tableGet tb.datasetDefaults d with
      | error e =>
          simp only [ht, eseq] at h
          exact Except.noConfusion h
      | ok t =>
          simp only [ht, eseq] at h
          exact Or.inl ⟨t, h⟩

theorem stageSplit_cases {tb : Tables} {c c' : Config}
    (h : stageSplit tb c = .ok c') :
    (∃ t, populate_config c t false = .ok c') ∨ c' = c := by
  unfold stageSplit at h
  cases hg : getattrE c "dataset" with
  | error e =>
      simp only [hg, eseq] at h
      exact Except.noConfusion h
  | ok d =>
      simp only [hg, eseq] at h
      cases d <;> try exact Or.inr ((Except.ok.inj h).symm)
      rename_i s
      have h2 : (match tb.splitDefaults s with
          | none => Except.ok c
          | some sub =>
              eseq (getattrE c "split_scheme") fun ss =>
              match ss with
              | Val.vStr s2 =>
                  match sub s2 with
                  | some t => populate_config c t false
                  | none => Except.ok c
              | _ => Except.ok c) = Except.ok c' := h
      clear h
      cases hs : tb.splitDefaults s with
      | none =>
          simp only [hs] at h2
          exact Or.inr ((Except.ok.inj h2).symm)
      | some sub =>
          simp only [hs] at h2
          cases hg2 : getattrE c "split_scheme" with
          | error e =>
              simp only [hg2, eseq] at h2
              exact Except.noConfusion h2
          | ok ss =>
              simp only [hg2, eseq] at h2
              cases ss <;> try exact Or.inr ((Except.ok.inj h2).symm)
              rename_i s2
              have h3 : (match sub s2 with
                  | some t => populate_config c t false
                  | none => Except.ok c) = Except.ok c' := h2
              clear h2
              cases hs2 : sub s2 with
              | none =>
                  simp only [hs2] at h3
                  exact Or.inr ((Except.ok.inj h3).symm)
              | some t =>
                  simp only [hs2] at h3
                  exact Or.inl ⟨t, h3⟩

theorem stageAlgorithm_cases {tb : Tables} {c c' : Config}
    (h : stageAlgorithm tb c = .ok c') :
    (∃ t, populate_config c t false = .ok c') ∨ c' = c := by
  unfold stageAlgorithm at h
  cases hg : getattrE c "algorithm" with
  | error e =>
      simp only [hg, eseq] at h
      exact Except.noConfusion h
  | ok a =>
      simp only [hg, eseq] at h
      cases ht : tableGet tb.algorithmDefaults a with
      | error e =>
          simp only [ht, eseq] at h
          exact Except.noConfusion h
      | ok t =>
          simp only [ht, eseq] at h
          exact Or.inl ⟨t, h⟩

theorem stageLoader_cases {tb : Tables} {c c' : Config}
    (h : stageLoader tb c = .ok c') :
    (∃ t, populate_config c t false = .ok c') ∨ c' = c :=
  Or.inl ⟨tb.loaderDefaults, h⟩

theorem stageModel_cases {tb : Tables} {c c' : Config}
    (h : stageModel tb c = .ok c') :
    (∃ t, populate_config c t false = .ok c') ∨ c' = c := by
  unfold stageModel at h
  cases hg : getattrE c "model" with
  | error e =>
      simp only [hg, eseq] at h
      exact Except.noConfusion h
  | ok m =>
      simp only [hg, eseq] at h
      by_cases hm : truthy m = true
      · rw [if_pos hm] at h
        cases ht : tableGet tb.modelDefaults m with
        | error e =>
            simp only [ht, eseq] at h
            exact Except.noConfusion h
        | ok t =>
            simp only [ht, eseq] at h
            exact Or.inl ⟨t, h⟩
      · rw [if_neg hm] at h
        exact Or.inr ((Except.ok.inj h).symm)

theorem stageScheduler_cases {tb : Tables} {c c' : Config}
    (h : stageScheduler tb c = .ok c') :
    (∃ t, populate_config c t false = .ok c') ∨ c' = c := by
  unfold stageScheduler at h
  cases hg : getattrE c "scheduler" with
  | error e =>
      simp only [hg, eseq] at h
      exact Except.noConfusion h
  | ok m =>
      simp only [hg, eseq] at h
      by_cases hm : truthy m = true
      · rw [if_pos hm] at h
        cases ht : tableGet tb.schedulerDefaults m with
        | error e =>
            simp only [ht, eseq] at h
            exact Except.noConfusion h
        | ok t =>
            simp only [ht, eseq] at h
            exact Or.inl ⟨t, h⟩
      · rw [if_neg hm] at h
        exact Or.inr ((Except.ok.inj h).symm)

theorem applyPresets_preserves (tb : Tables) :
    PreservesNonNull (applyPresets tb) :=
  preserves_comp (preserves_of_cases (fun _ _ => stageDataset_cases))
    (preserves_comp (preserves_of_cases (fun _ _ => stageSplit_cases))
      (preserves_comp (preserves_of_cases (fun _ _ => stageAlgorithm_cases))
        (preserves_comp (preserves_of_cases (fun _ _ => stageLoader_cases))
          (preserves_comp (preserves_of_cases (fun _ _ => stageModel_cases))
            (preserves_of_cases (fun _ _ => stageScheduler_cases))))))

theorem miscDefaults_lookup_ne {c c' : Config}
    (h : miscDefaults c = .ok c') {k : String} (hk : k ≠ "no_group_logging") :
    lookup c' k = lookup c k := by
  unfold miscDefaults at h
  cases hg : getattrE c "groupby_fields" with
  | error e =>
      simp only [hg, eseq] at h
      exact Except.noConfusion h
  | ok gb =>
      simp only [hg, eseq] at h
      by_cases hn : gb = Val.vNone
      · rw [if_pos hn] at h
        cases hg2 : getattrE (setKey c "no_group_logging" (.vBool true))
            "no_group_logging" with
        | error e =>
            simp only [hg2, eseq] at h
            exact Except.noConfusion h
        | ok ngl =>
            simp only [hg2, eseq] at h
            cases h
            rw [lookup_setKey_ne _ _ hk, lookup_setKey_ne _ _ hk]
      · rw [if_neg hn] at h
        cases hg2 : getattrE c "no_group_logging" with
        | error e =>
            simp only [hg2, eseq] at h
            exact Except.noConfusion h
        | ok ngl =>
            simp only [hg2, eseq] at h
            cases h
            rw [lookup_setKey_ne _ _ hk]

theorem checkRequiredAux_ok {c c2 : Config} :
    ∀ fs : List String, checkRequiredAux c fs = .ok c2 → c2 = c := by
  intro fs
  induction fs with
  | nil =>
      intro h
      exact (Except.ok.inj h).symm
  | cons f fs ih =>
      intro h
      unfold checkRequiredAux at h
      cases hg : getattrE c f with
      | error e =>
          simp only [hg, eseq] at h
          exact Except.noConfusion h
      | ok v =>
          simp only [hg, eseq] at h
          by_cases hn : v = Val.vNone
          · rw [if_pos hn] at h
            exact Except.noConfusion h
          · rw [if_neg hn] at h
            exact ih h

theorem checkRequiredAux_first {c : Config} :
    ∀ (pre post : List String) (f : String),
    (∀ f2 ∈ pre, ∃ v, lookup c f2 = some v ∧ v ≠ .vNone) →
    lookup c f = some .vNone →
    checkRequiredAux c (pre ++ f :: post)
      = .error (.assertionError
          ("Must manually specify " ++ f ++ " for this setup.")) := by
  intro pre
  induction pre with
  | nil =>
      intro post f _ hf
      simp only [List.nil_append]
      unfold checkRequiredAux
      simp only [getattrE, hf, eseq]
      rw [if_pos trivial]
  | cons f2 pre ih =>
      intro post f hnn hf
      obtain ⟨v, hv, hvn⟩ := hnn f2 (List.mem_cons_self _ _)
      simp only [List.cons_append]
      unfold checkRequiredAux
      simp only [getattrE, hv, eseq, if_neg hvn]
      exact ih post f (fun x hx => hnn x (List.mem_cons_of_mem _ hx)) hf

theorem eseq_ok {α β : Type} (a : α) (f : α → Except CfgErr β) :
    eseq (.ok a) f = f a := rfl

theorem eseq_error {α β : Type} (e : CfgErr) (f : α → Except CfgErr β) :
    eseq (.error e) f = .error e := rfl

theorem validateConfig_ok_fsd {c ca : Config} (h : validateConfig c = .ok ca) :
    checkFromSourceDomain c = .ok ca := by
  unfold validateConfig at h
  cases h1 : getattrE c "dataset" with
  | error e =>
      simp only [h1, eseq] at h
      exact Except.noConfusion h
  | ok d =>
      simp only [h1, eseq] at h
      by_cases hd : d = Val.vNone
      · rw [if_pos hd] at h
        exact Except.noConfusion h
      · rw [if_neg hd] at h
        cases h2 : getattrE c "algorithm" with
        | error e =>
            simp only [h2, eseq] at h
            exact Except.noConfusion h
        | ok a =>
            simp only [h2, eseq] at h
            by_cases ha : a = Val.vNone
            · rw [if_pos ha] at h
              exact Except.noConfusion h
            · rw [if_neg ha] at h
              cases hcf : checkFromSourceDomain c with
              | error e =>
                  simp only [hcf, eseq] at h
                  exact Except.noConfusion h
              | ok ca1 =>
                  simp only [hcf, eseq] at h
                  by_cases hdann : a = Val.vStr "DANN"
                  · rw [if_pos hdann] at h
                    cases hlr : getattrE ca1 "lr" with
                    | error e =>
                        simp only [hlr, eseq] at h
                        exact Except.noConfusion h
                    | ok lr =>
                        simp only [hlr, eseq] at h
                        by_cases hlrn : lr ≠ Val.vNone
                        · rw [if_pos hlrn] at h
                          exact Except.noConfusion h
                        · rw [if_neg hlrn] at h
                          rw [Except.ok.inj h]
                  · rw [if_neg hdann] at h
                    rw [Except.ok.inj h]

theorem validateConfig_err_fsd {c : Config} {d a : Val} {e : CfgErr}
    (hd : lookup c "dataset" = some d) (hdn : d ≠ .vNone)
    (ha : lookup c "algorithm" = some a) (han : a ≠ .vNone)
    (hcf : checkFromSourceDomain c = .error e) :
    validateConfig c = .error e := by
  unfold validateConfig
  have hdE : getattrE c "dataset" = .ok d := by simp [getattrE, hd]
  have haE : getattrE c "algorithm" = .ok a := by simp [getattrE, ha]
  rw [hdE]
  simp only [eseq]
  rw [if_neg hdn, haE]
  simp only [eseq]
  rw [if_neg han, hcf]

theorem populate_defaults_err_validate {tb : Tables} {c : Config} {e : CfgErr}
    (h : validateConfig c = .error e) : populate_defaults tb c = .error e := by
  unfold populate_defaults
  simp only [h, eseq]

theorem populate_defaults_ok_decompose {tb : Tables} {c c' : Config}
    (h : populate_defaults tb c = .ok c') :
    ∃ ca cb, validateConfig c = .ok ca ∧ applyPresets tb ca = .ok cb ∧
      miscDefaults cb = .ok c' := by
  unfold populate_defaults at h
  cases h1 : validateConfig c with
  | error e =>
      simp only [h1, eseq] at h
      exact Except.noConfusion h
  | ok ca =>
      simp only [h1, eseq] at h
      cases h2 : applyPresets tb ca with
      | error e =>
          simp only [h2, eseq] at h
          exact Except.noConfusion h
      | ok cb =>
          simp only [h2, eseq] at h
          cases h3 : miscDefaults cb with
          | error e =>
              simp only [h3, eseq] at h
              exact Except.noConfusion h
          | ok cm =>
              simp only [h3, eseq] at h
              unfold checkRequired at h
              have hcc : c' = cm := checkRequiredAux_ok requiredFields h
              subst hcc
              exact ⟨ca, cb, rfl, h2, h3⟩

theorem checkFSD_sets_n {c : Config}
    (hgb : lookup c "groupby_fields" = some (.vStrList ["from_source_domain"]))
    (hn : lookup c "n_groups_per_batch" = some .vNone) :
    ∀ ca, checkFromSourceDomain c = .ok ca →
      lookup ca "n_groups_per_batch" = some (.vInt 1) := by
  intro ca hca
  have hgbE : getattrE c "groupby_fields"
      = .ok (.vStrList ["from_source_domain"]) := by simp [getattrE, hgb]
  have hnE : getattrE c "n_groups_per_batch" = .ok .vNone := by
    simp [getattrE, hn]
  unfold checkFromSourceDomain at hca
  rw [hgbE, eseq_ok] at hca
  rw [if_pos rfl, hnE] at hca
  simp only [eseq_ok] at hca
  cases hu : getattrE (setKey c "n_groups_per_batch" (.vInt 1))
      "unlabeled_n_groups_per_batch" with
  | error e =>
      rw [hu, eseq_error] at hca
      exact Except.noConfusion hca
  | ok u =>
      rw [hu, eseq_ok] at hca
      split at hca
      · cases hca
        rw [lookup_setKey_ne _ _
          (by decide : ("n_groups_per_batch" : String) ≠ "unlabeled_n_groups_per_batch")]
        exact lookup_setKey_self c _ _
      · split at hca
        · cases hca
          exact lookup_setKey_self c _ _
        · exact Except.noConfusion hca

theorem checkFSD_sets_u {c : Config}
    (hgb : lookup c "groupby_fields" = some (.vStrList ["from_source_domain"]))
    (hu : lookup c "unlabeled_n_groups_per_batch" = some .vNone) :
    ∀ ca, checkFromSourceDomain c = .ok ca →
      lookup ca "unlabeled_n_groups_per_batch" = some (.vInt 1) := by
  intro ca hca
  have hgbE : getattrE c "groupby_fields"
      = .ok (.vStrList ["from_source_domain"]) := by simp [getattrE, hgb]
  unfold checkFromSourceDomain at hca
  rw [hgbE, eseq_ok] at hca
  rw [if_pos rfl] at hca
  cases hnA : getattrE c "n_groups_per_batch" with
  | error e =>
      rw [hnA, eseq_error] at hca
      exact Except.noConfusion hca
  | ok n =>
      rw [hnA, eseq_ok] at hca
      have huE : getattrE (setKey c "n_groups_per_batch" (.vInt 1))
          "unlabeled_n_groups_per_batch" = .ok .vNone := by
        rw [getattrE, lookup_setKey_ne _ _
          (by decide : ("unlabeled_n_groups_per_batch" : String) ≠ "n_groups_per_batch"), hu]
      have huE0 : getattrE c "unlabeled_n_groups_per_batch" = .ok .vNone := by
        simp [getattrE, hu]
      split at hca
      · -- n was null: it is set to 1, then the unlabeled count is read
        rw [eseq_ok, huE, eseq_ok] at hca
        simp only [] at hca
        cases hca
        exact lookup_setKey_self _ _ _
      · -- n was non-null: split on the equality-with-1 test
        split at hca
        · rw [eseq_ok, huE0, eseq_ok] at hca
          simp only [] at hca
          cases hca
          exact lookup_setKey_self _ _ _
        · rw [eseq_error] at hca
          exact Except.noConfusion hca

theorem checkFSD_err_n {c : Config} {v : Val}
    (hgb : lookup c "groupby_fields" = some (.vStrList ["from_source_domain"]))
    (hv : lookup c "n_groups_per_batch" = some v) (hvn : v ≠ .vNone)
    (hpy : pyEqV v (.vInt 1) = false) :
    checkFromSourceDomain c = .error (.groupsValueError "n_groups_per_batch" v) := by
  have hgbE : getattrE c "groupby_fields"
      = .ok (.vStrList ["from_source_domain"]) := by simp [getattrE, hgb]
  have hnE : getattrE c "n_groups_per_batch" = .ok v := by simp [getattrE, hv]
  unfold checkFromSourceDomain
  rw [hgbE, eseq_ok]
  rw [if_pos rfl, hnE]
  simp only [eseq_ok]
  cases v with
  | vNone => exact absurd rfl hvn
  | vBool b => simp [hpy, eseq_error]
  | vInt n => simp [hpy, eseq_error]
  | vRat q => simp [hpy, eseq_error]
  | vStr s => simp [hpy, eseq_error]
  | vStrList l => simp [hpy, eseq_error]
  | vDict d => simp [hpy, eseq_error]

theorem checkFSD_err_u {c : Config} {v : Val}
    (hgb : lookup c "groupby_fields" = some (.vStrList ["from_source_domain"]))
    (hv : lookup c "unlabeled_n_groups_per_batch" = some v) (hvn : v ≠ .vNone)
    (hpy : pyEqV v (.vInt 1) = false)
    (hpass : lookup c "n_groups_per_batch" = some .vNone ∨
      (∃ vn, lookup c "n_groups_per_batch" = some vn ∧ pyEqV vn (.vInt 1) = true)) :
    checkFromSourceDomain c
      = .error (.groupsValueError "unlabeled_n_groups_per_batch" v) := by
  have hgbE : getattrE c "groupby_fields"
      = .ok (.vStrList ["from_source_domain"]) := by simp [getattrE, hgb]
  unfold checkFromSourceDomain
  rw [hgbE, eseq_ok]
  rw [if_pos rfl]
  have hufin : ∀ c1 : Config,
      lookup c1 "unlabeled_n_groups_per_batch" = some v →
      (eseq (getattrE c1 "unlabeled_n_groups_per_batch") fun u =>
        match u with
        | Val.vNone =>
            Except.ok (setKey c1 "unlabeled_n_groups_per_batch" (.vInt 1))
        | v =>
            if pyEqV v (.vInt 1) then Except.ok c1
            else Except.error (.groupsValueError "unlabeled_n_groups_per_batch" v))
        = .error (.groupsValueError "unlabeled_n_groups_per_batch" v) := by
    intro c1 h1
    have huE : getattrE c1 "unlabeled_n_groups_per_batch" = .ok v := by
      simp [getattrE, h1]
    rw [huE, eseq_ok]
    cases v with
    | vNone => exact absurd rfl hvn
    | vBool b => simp [hpy]
    | vInt n => simp [hpy]
    | vRat q => simp [hpy]
    | vStr s => simp [hpy]
    | vStrList l => simp [hpy]
    | vDict d => simp [hpy]
  rcases hpass with hn | ⟨vn, hvn2, hpy2⟩
  · have hnE : getattrE c "n_groups_per_batch" = .ok .vNone := by
      simp [getattrE, hn]
    rw [hnE]
    simp only [eseq_ok]
    exact hufin _ (by
      rw [lookup_setKey_ne _ _
        (by decide : ("unlabeled_n_groups_per_batch" : String) ≠ "n_groups_per_batch")]
      exact hv)
  · have hnE : getattrE c "n_groups_per_batch" = .ok vn := by
      simp [getattrE, hvn2]
    rw [hnE, eseq_ok]
    have hvnn : vn ≠ Val.vNone := by
      intro he
      rw [he] at hpy2
      simp [pyEqV, Val.toNum] at hpy2
    have hred : ∀ k : Config → Except CfgErr Config,
        (eseq (match vn with
          | Val.vNone => Except.ok (setKey c "n_groups_per_batch" (.vInt 1))
          | v =>
              if pyEqV v (.vInt 1) then Except.ok c
              else Except.error (.groupsValueError "n_groups_per_batch" v)) k)
          = k c := by
      intro k
      cases vn with
      | vNone => exact absurd rfl hvnn
      | vBool b => simp [hpy2, eseq_ok]
      | vInt n => simp [hpy2, eseq_ok]
      | vRat q => simp [hpy2, eseq_ok]
      | vStr s => simp [hpy2, eseq_ok]
      | vStrList l => simp [hpy2, eseq_ok]
      | vDict d => simp [hpy2, eseq_ok]
    rw [hred]
    exact hufin c hv

/-!
## Claims C7, C8, C9: `populate_defaults`
-/

/-- C7: when `groupby_fields == ['from_source_domain']` (and the initial
dataset/algorithm assertions pass), a null `n_groups_per_batch`
(resp. `unlabeled_n_groups_per_batch`) is set to 1 — and keeps that value in
any successful resolution, since later layers never overwrite it — while a
pre-set value `!= 1` makes `populate_defaults` raise the corresponding
`ValueError`; the error is raised in the validation step, before any preset
cascading (the result does not depend on the preset tables `tb`). -/
theorem claim_C7_from_source_domain (tb : Tables) (c : Config) (d a : Val)
    (hd : lookup c "dataset" = some d) (hdn : d ≠ .vNone)
    (ha : lookup c "algorithm" = some a) (han : a ≠ .vNone)
    (hgb : lookup c "groupby_fields" = some (.vStrList ["from_source_domain"])) :
    (lookup c "n_groups_per_batch" = some .vNone →
       ∀ c', populate_defaults tb c = .ok c' →
         lookup c' "n_groups_per_batch" = some (.vInt 1)) ∧
    (lookup c "unlabeled_n_groups_per_batch" = some .vNone →
       ∀ c', populate_defaults tb c = .ok c' →
         lookup c' "unlabeled_n_groups_per_batch" = some (.vInt 1)) ∧
    (∀ v, lookup c "n_groups_per_batch" = some v → v ≠ .vNone →
       pyEqV v (.vInt 1) = false →
       populate_defaults tb c
         = .error (.groupsValueError "n_groups_per_batch" v)) ∧
    (∀ v, lookup c "unlabeled_n_groups_per_batch" = some v → v ≠ .vNone →
       pyEqV v (.vInt 1) = false →
       (lookup c "n_groups_per_batch" = some .vNone ∨
        (∃ vn, lookup c "n_groups_per_batch" = some vn ∧
           pyEqV vn (.vInt 1) = true)) →
       populate_defaults tb c
         = .error (.groupsValueError "unlabeled_n_groups_per_batch" v)) := by
  refine ⟨?_, ?_, ?_, ?_⟩
  · intro hn c' hpd
    obtain ⟨ca, cb, h1, h2, h3⟩ := populate_defaults_ok_decompose hpd
    have l1 : lookup ca "n_groups_per_batch" = some (.vInt 1) :=
      checkFSD_sets_n hgb hn ca (validateConfig_ok_fsd h1)
    have l2 : lookup cb "n_groups_per_batch" = some (.vInt 1) :=
      ((applyPresets_preserves tb) ca cb h2).1 _ _ l1
        (by intro hh; cases hh) (by intro dd hh; cases hh)
    have l3 : lookup c' "n_groups_per_batch" = lookup cb "n_groups_per_batch" :=
      miscDefaults_lookup_ne h3
        (show ("n_groups_per_batch" : String) ≠ "no_group_logging" by decide)
    rw [l3]
    exact l2
  · intro hu c' hpd
    obtain ⟨ca, cb, h1, h2, h3⟩ := populate_defaults_ok_decompose hpd
    have l1 : lookup ca "unlabeled_n_groups_per_batch" = some (.vInt 1) :=
      checkFSD_sets_u hgb hu ca (validateConfig_ok_fsd h1)
    have l2 : lookup cb "unlabeled_n_groups_per_batch" = some (.vInt 1) :=
      ((applyPresets_preserves tb) ca cb h2).1 _ _ l1
        (by intro hh; cases hh) (by intro dd hh; cases hh)
    have l3 : lookup c' "unlabeled_n_groups_per_batch"
        = lookup cb "unlabeled_n_groups_per_batch" :=
      miscDefaults_lookup_ne h3
        (show ("unlabeled_n_groups_per_batch" : String) ≠ "no_group_logging" by decide)
    rw [l3]
    exact l2
  · intro v hv hvn hpy
    exact populate_defaults_err_validate
      (validateConfig_err_fsd hd hdn ha han (checkFSD_err_n hgb hv hvn hpy))
  · intro v hv hvn hpy hpass
    exact populate_defaults_err_validate
      (validateConfig_err_fsd hd hdn ha han (checkFSD_err_u hgb hv hvn hpy hpass))

/-- Witness for C7 at a concrete configuration. -/
theorem claim_C7_witness :
    (lookup [("dataset", Val.vStr "camelyon17"), ("algorithm", Val.vStr "ERM"),
        ("groupby_fields", Val.vStrList ["from_source_domain"]),
        ("n_groups_per_batch", Val.vNone),
        ("unlabeled_n_groups_per_batch", Val.vNone)] "n_groups_per_batch"
        = some .vNone →
       ∀ c', populate_defaults
          ⟨fun _ => some [], fun _ => none, fun _ => some [], [],
           fun _ => some [], fun _ => some []⟩
          [("dataset", Val.vStr "camelyon17"), ("algorithm", Val.vStr "ERM"),
           ("groupby_fields", Val.vStrList ["from_source_domain"]),
           ("n_groups_per_batch", Val.vNone),
           ("unlabeled_n_groups_per_batch", Val.vNone)] = .ok c' →
         lookup c' "n_groups_per_batch" = some (.vInt 1)) ∧
    (lookup [("dataset", Val.vStr "camelyon17"), ("algorithm", Val.vStr "ERM"),
        ("groupby_fields", Val.vStrList ["from_source_domain"]),
        ("n_groups_per_batch", Val.vNone),
        ("unlabeled_n_groups_per_batch", Val.vNone)]
        "unlabeled_n_groups_per_batch" = some .vNone →
       ∀ c', populate_defaults
          ⟨fun _ => some [], fun _ => none, fun _ => some [], [],
           fun _ => some [], fun _ => some []⟩
          [("dataset", Val.vStr "camelyon17"), ("algorithm", Val.vStr "ERM"),
           ("groupby_fields", Val.vStrList ["from_source_domain"]),
           ("n_groups_per_batch", Val.vNone),
           ("unlabeled_n_groups_per_batch", Val.vNone)] = .ok c' →
         lookup c' "unlabeled_n_groups_per_batch" = some (.vInt 1)) ∧
    (∀ v, lookup [("dataset", Val.vStr "camelyon17"), ("algorithm", Val.vStr "ERM"),
        ("groupby_fields", Val.vStrList ["from_source_domain"]),
        ("n_groups_per_batch", Val.vNone),
        ("unlabeled_n_groups_per_batch", Val.vNone)] "n_groups_per_batch"
        = some v → v ≠ .vNone →
       pyEqV v (.vInt 1) = false →
       populate_defaults
          ⟨fun _ => some [], fun _ => none, fun _ => some [], [],
           fun _ => some [], fun _ => some []⟩
          [("dataset", Val.vStr "camelyon17"), ("algorithm", Val.vStr "ERM"),
           ("groupby_fields", Val.vStrList ["from_source_domain"]),
           ("n_groups_per_batch", Val.vNone),
           ("unlabeled_n_groups_per_batch", Val.vNone)]
         = .error (.groupsValueError "n_groups_per_batch" v)) ∧
    (∀ v, lookup [("dataset", Val.vStr "camelyon17"), ("algorithm", Val.vStr "ERM"),
        ("groupby_fields", Val.vStrList ["from_source_domain"]),
        ("n_groups_per_batch", Val.vNone),
        ("unlabeled_n_groups_per_batch", Val.vNone)]
        "unlabeled_n_groups_per_batch" = some v → v ≠ .vNone →
       pyEqV v (.vInt 1) = false →
       (lookup [("dataset", Val.vStr "camelyon17"), ("algorithm", Val.vStr "ERM"),
          ("groupby_fields", Val.vStrList ["from_source_domain"]),
          ("n_groups_per_batch", Val.vNone),
          ("unlabeled_n_groups_per_batch", Val.vNone)] "n_groups_per_batch"
          = some .vNone ∨
        (∃ vn, lookup [("dataset", Val.vStr "camelyon17"),
            ("algorithm", Val.vStr "ERM"),
            ("groupby_fields", Val.vStrList ["from_source_domain"]),
            ("n_groups_per_batch", Val.vNone),
            ("unlabeled_n_groups_per_batch", Val.vNone)] "n_groups_per_batch"
            = some vn ∧ pyEqV vn (.vInt 1) = true)) →
       populate_defaults
          ⟨fun _ => some [], fun _ => none, fun _ => some [], [],
           fun _ => some [], fun _ => some []⟩
          [("dataset", Val.vStr "camelyon17"), ("algorithm", Val.vStr "ERM"),
           ("groupby_fields", Val.vStrList ["from_source_domain"]),
           ("n_groups_per_batch", Val.vNone),
           ("unlabeled_n_groups_per_batch", Val.vNone)]
         = .error (.groupsValueError "unlabeled_n_groups_per_batch" v)) :=
  claim_C7_from_source_domain
    ⟨fun _ => some [], fun _ => none, fun _ => some [], [],
     fun _ => some [], fun _ => some []⟩
    [("dataset", Val.vStr "camelyon17"), ("algorithm", Val.vStr "ERM"),
     ("groupby_fields", Val.vStrList ["from_source_domain"]),
     ("n_groups_per_batch", Val.vNone),
     ("unlabeled_n_groups_per_batch", Val.vNone)]
    (Val.vStr "camelyon17") (Val.vStr "ERM")
    rfl (by decide) rfl (by decide) rfl

/-- C8 (counterexample): the claim says a config whose `lr` is still null
after cascading gets a `ConfigError` naming `lr`; but the checklist is
checked in order, and with `split_scheme` also null the raised error names
`split_scheme`, not `lr`, even though `lr` is null after all cascading. -/
theorem claim_C8_cex :
    miscDefaults [("dataset", Val.vStr "camelyon17"), ("algorithm", Val.vStr "ERM"),
        ("groupby_fields", Val.vNone), ("model", Val.vStr "resnet"),
        ("scheduler", Val.vNone), ("no_group_logging", Val.vNone),
        ("split_scheme", Val.vNone), ("train_loader", Val.vStr "standard"),
        ("uniform_over_groups", Val.vBool true), ("batch_size", Val.vInt 32),
        ("eval_loader", Val.vStr "standard"),
        ("loss_function", Val.vStr "cross_entropy"), ("val_metric", Val.vStr "acc"),
        ("val_metric_decreasing", Val.vBool false), ("n_epochs", Val.vInt 5),
        ("optimizer", Val.vStr "SGD"), ("lr", Val.vNone),
        ("weight_decay", Val.vRat 0)]
      = .ok [("dataset", Val.vStr "camelyon17"), ("algorithm", Val.vStr "ERM"),
        ("groupby_fields", Val.vNone), ("model", Val.vStr "resnet"),
        ("scheduler", Val.vNone), ("no_group_logging", Val.vBool true),
        ("split_scheme", Val.vNone), ("train_loader", Val.vStr "standard"),
        ("uniform_over_groups", Val.vBool true), ("batch_size", Val.vInt 32),
        ("eval_loader", Val.vStr "standard"),
        ("loss_function", Val.vStr "cross_entropy"), ("val_metric", Val.vStr "acc"),
        ("val_metric_decreasing", Val.vBool false), ("n_epochs", Val.vInt 5),
        ("optimizer", Val.vStr "SGD"), ("lr", Val.vNone),
        ("weight_decay", Val.vRat 0)] ∧
    lookup [("dataset", Val.vStr "camelyon17"), ("algorithm", Val.vStr "ERM"),
        ("groupby_fields", Val.vNone), ("model", Val.vStr "resnet"),
        ("scheduler", Val.vNone), ("no_group_logging", Val.vBool true),
        ("split_scheme", Val.vNone), ("train_loader", Val.vStr "standard"),
        ("uniform_over_groups", Val.vBool true), ("batch_size", Val.vInt 32),
        ("eval_loader", Val.vStr "standard"),
        ("loss_function", Val.vStr "cross_entropy"), ("val_metric", Val.vStr "acc"),
        ("val_metric_decreasing", Val.vBool false), ("n_epochs", Val.vInt 5),
        ("optimizer", Val.vStr "SGD"), ("lr", Val.vNone),
        ("weight_decay", Val.vRat 0)] "lr" = some .vNone ∧
    populate_defaults
      ⟨fun _ => some [], fun _ => none, fun _ => some [], [],
       fun _ => some [], fun _ => some []⟩
      [("dataset", Val.vStr "camelyon17"), ("algorithm", Val.vStr "ERM"),
       ("groupby_fields", Val.vNone), ("model", Val.vStr "resnet"),
       ("scheduler", Val.vNone), ("no_group_logging", Val.vNone),
       ("split_scheme", Val.vNone), ("train_loader", Val.vStr "standard"),
       ("uniform_over_groups", Val.vBool true), ("batch_size", Val.vInt 32),
       ("eval_loader", Val.vStr "standard"),
       ("loss_function", Val.vStr "cross_entropy"), ("val_metric", Val.vStr "acc"),
       ("val_metric_decreasing", Val.vBool false), ("n_epochs", Val.vInt 5),
       ("optimizer", Val.vStr "SGD"), ("lr", Val.vNone),
       ("weight_decay", Val.vRat 0)]
      = .error (.assertionError "Must manually specify split_scheme for this setup.") :=
  ⟨rfl, rfl, rfl⟩

/-- C8 (amended): after the validation, preset-cascade and misc stages
succeed, the required-field check walks the checklist in source order and
raises an AssertionError naming the first null field it meets; in
particular, when `lr` is the first (e.g. the only) required field still
null after cascading, the error names `lr`. -/
theorem claim_C8_required_field (tb : Tables) (c ca cb cm : Config)
    (pre post : List String) (f : String)
    (h1 : validateConfig c = .ok ca)
    (h2 : applyPresets tb ca = .ok cb)
    (h3 : miscDefaults cb = .ok cm)
    (hsplit : requiredFields = pre ++ f :: post)
    (hnn : ∀ f2 ∈ pre, ∃ v, lookup cm f2 = some v ∧ v ≠ .vNone)
    (hf : lookup cm f = some .vNone) :
    populate_defaults tb c = .error
      (.assertionError ("Must manually specify " ++ f ++ " for this setup.")) := by
  unfold populate_defaults
  rw [h1, eseq_ok]
  rw [h2, eseq_ok]
  rw [h3, eseq_ok]
  unfold checkRequired
  rw [hsplit]
  exact checkRequiredAux_first pre post f hnn hf

/-- Witness for C8: `lr` is the only required field left null, and the
raised error names `lr`. -/
theorem claim_C8_witness :
    populate_defaults
      ⟨fun _ => some [], fun _ => none, fun _ => some [], [],
       fun _ => some [], fun _ => some []⟩
      [("dataset", Val.vStr "camelyon17"), ("algorithm", Val.vStr "ERM"),
       ("groupby_fields", Val.vNone), ("model", Val.vStr "resnet"),
       ("scheduler", Val.vNone), ("no_group_logging", Val.vNone),
       ("split_scheme", Val.vStr "official"), ("train_loader", Val.vStr "standard"),
       ("uniform_over_groups", Val.vBool true), ("batch_size", Val.vInt 32),
       ("eval_loader", Val.vStr "standard"),
       ("loss_function", Val.vStr "cross_entropy"), ("val_metric", Val.vStr "acc"),
       ("val_metric_decreasing", Val.vBool false), ("n_epochs", Val.vInt 5),
       ("optimizer", Val.vStr "SGD"), ("lr", Val.vNone),
       ("weight_decay", Val.vRat 0)]
      = .error (.assertionError "Must manually specify lr for this setup.") :=
  claim_C8_required_field
    ⟨fun _ => some [], fun _ => none, fun _ => some [], [],
     fun _ => some [], fun _ => some []⟩
    [("dataset", Val.vStr "camelyon17"), ("algorithm", Val.vStr "ERM"),
     ("groupby_fields", Val.vNone), ("model", Val.vStr "resnet"),
     ("scheduler", Val.vNone), ("no_group_logging", Val.vNone),
     ("split_scheme", Val.vStr "official"), ("train_loader", Val.vStr "standard"),
     ("uniform_over_groups", Val.vBool true), ("batch_size", Val.vInt 32),
     ("eval_loader", Val.vStr "standard"),
     ("loss_function", Val.vStr "cross_entropy"), ("val_metric", Val.vStr "acc"),
     ("val_metric_decreasing", Val.vBool false), ("n_epochs", Val.vInt 5),
     ("optimizer", Val.vStr "SGD"), ("lr", Val.vNone),
     ("weight_decay", Val.vRat 0)]
    [("dataset", Val.vStr "camelyon17"), ("algorithm", Val.vStr "ERM"),
     ("groupby_fields", Val.vNone), ("model", Val.vStr "resnet"),
     ("scheduler", Val.vNone), ("no_group_logging", Val.vNone),
     ("split_scheme", Val.vStr "official"), ("train_loader", Val.vStr "standard"),
     ("uniform_over_groups", Val.vBool true), ("batch_size", Val.vInt 32),
     ("eval_loader", Val.vStr "standard"),
     ("loss_function", Val.vStr "cross_entropy"), ("val_metric", Val.vStr "acc"),
     ("val_metric_decreasing", Val.vBool false), ("n_epochs", Val.vInt 5),
     ("optimizer", Val.vStr "SGD"), ("lr", Val.vNone),
     ("weight_decay", Val.vRat 0)]
    [("dataset", Val.vStr "camelyon17"), ("algorithm", Val.vStr "ERM"),
     ("groupby_fields", Val.vNone), ("model", Val.vStr "resnet"),
     ("scheduler", Val.vNone), ("no_group_logging", Val.vNone),
     ("split_scheme", Val.vStr "official"), ("train_loader", Val.vStr "standard"),
     ("uniform_over_groups", Val.vBool true), ("batch_size", Val.vInt 32),
     ("eval_loader", Val.vStr "standard"),
     ("loss_function", Val.vStr "cross_entropy"), ("val_metric", Val.vStr "acc"),
     ("val_metric_decreasing", Val.vBool false), ("n_epochs", Val.vInt 5),
     ("optimizer", Val.vStr "SGD"), ("lr", Val.vNone),
     ("weight_decay", Val.vRat 0)]
    [("dataset", Val.vStr "camelyon17"), ("algorithm", Val.vStr "ERM"),
     ("groupby_fields", Val.vNone), ("model", Val.vStr "resnet"),
     ("scheduler", Val.vNone), ("no_group_logging", Val.vBool true),
     ("split_scheme", Val.vStr "official"), ("train_loader", Val.vStr "standard"),
     ("uniform_over_groups", Val.vBool true), ("batch_size", Val.vInt 32),
     ("eval_loader", Val.vStr "standard"),
     ("loss_function", Val.vStr "cross_entropy"), ("val_metric", Val.vStr "acc"),
     ("val_metric_decreasing", Val.vBool false), ("n_epochs", Val.vInt 5),
     ("optimizer", Val.vStr "SGD"), ("lr", Val.vNone),
     ("weight_decay", Val.vRat 0)]
    ["split_scheme", "train_loader", "uniform_over_groups", "batch_size",
     "eval_loader", "model", "loss_function", "val_metric",
     "val_metric_decreasing", "n_epochs", "optimizer"]
    ["weight_decay"] "lr" rfl rfl rfl rfl
    (by
      intro f2 hf2
      fin_cases hf2 <;> exact ⟨_, rfl, by decide⟩)
    rfl

/-- C9: the preset cascade applies, in the fixed source order, the dataset,
split-scheme, algorithm, loader, model, and scheduler presets; and because
each layer only fills fields that are still null, precedence between layers
is first-writer-wins: no single stage, and not the cascade as a whole,
ever replaces an already non-null scalar field value or an already non-null
kwargs sub-value set by an earlier layer. -/
theorem claim_C9_cascade_order_first_writer_wins (tb : Tables) :
    (∀ c, applyPresets tb c =
       eseq (stageDataset tb c) fun c1 =>
       eseq (stageSplit tb c1) fun c2 =>
       eseq (stageAlgorithm tb c2) fun c3 =>
       eseq (stageLoader tb c3) fun c4 =>
       eseq (stageModel tb c4) fun c5 =>
       stageScheduler tb c5) ∧
    PreservesNonNull (stageDataset tb) ∧
    PreservesNonNull (stageSplit tb) ∧
    PreservesNonNull (stageAlgorithm tb) ∧
    PreservesNonNull (stageLoader tb) ∧
    PreservesNonNull (stageModel tb) ∧
    PreservesNonNull (stageScheduler tb) ∧
    PreservesNonNull (applyPresets tb) :=
  ⟨fun _ => rfl,
   preserves_of_cases (fun _ _ => stageDataset_cases),
   preserves_of_cases (fun _ _ => stageSplit_cases),
   preserves_of_cases (fun _ _ => stageAlgorithm_cases),
   preserves_of_cases (fun _ _ => stageLoader_cases),
   preserves_of_cases (fun _ _ => stageModel_cases),
   preserves_of_cases (fun _ _ => stageScheduler_cases),
   applyPresets_preserves tb⟩

/-- Witness for C9: a concrete non-null field surviving the whole cascade
unchanged. -/
theorem claim_C9_witness :
    lookup [("dataset", Val.vStr "camelyon17"), ("algorithm", Val.vStr "ERM"),
        ("model", Val.vStr "resnet"),
        ("scheduler", Val.vNone), ("lr", Val.vRat 3)] "lr" = some (Val.vRat 3) →
    Val.vRat 3 ≠ Val.vNone →
    (∀ d, Val.vRat 3 ≠ Val.vDict d) →
    lookup [("dataset", Val.vStr "camelyon17"), ("algorithm", Val.vStr "ERM"),
        ("model", Val.vStr "resnet"),
        ("scheduler", Val.vNone), ("lr", Val.vRat 3)] "lr" = some (Val.vRat 3) :=
  ((claim_C9_cascade_order_first_writer_wins
      ⟨fun _ => some [("lr", Val.vRat 100)], fun _ => none,
       fun _ => some [], [], fun _ => some [], fun _ => some []⟩).2.2.2.2.2.2.2
    [("dataset", Val.vStr "camelyon17"), ("algorithm", Val.vStr "ERM"),
     ("model", Val.vStr "resnet"),
     ("scheduler", Val.vNone), ("lr", Val.vRat 3)]
    [("dataset", Val.vStr "camelyon17"), ("algorithm", Val.vStr "ERM"),
     ("model", Val.vStr "resnet"),
     ("scheduler", Val.vNone), ("lr", Val.vRat 3)] (by rfl)).1 "lr" (Val.vRat 3)

/-- Witness for C10 in training mode with unlabeled data present. -/
theorem claim_C10_witness :
    ∃ p r2, DeepCORAL.objective (fun _ _ => (10 : Rat)) 2 true
        { g := [0, 0, 1, 1], y_true := [0, 1, 0, 1], y_pred := [0, 0, 0, 0],
          metadata := [], features := some [[1], [2], [3], [5]],
          unlabeled_features := some [[0], [4]], unlabeled_g := some [7, 7],
          penalty := none }
        = .ok ((10 : Rat) + p * 2, r2) ∧
      r2.g = [0, 0, 1, 1] ∧ r2.y_true = [0, 1, 0, 1] ∧
      r2.y_pred = [0, 0, 0, 0] ∧ r2.metadata = [] ∧
      r2.unlabeled_g = some [7, 7] ∧
      r2.features = none ∧ r2.penalty = some p ∧
      (true = true → (some [[(0 : Rat)], [4]]).isSome → r2.unlabeled_features = none) ∧
      (true = false → r2.unlabeled_features = some [[(0 : Rat)], [4]]) :=
  claim_C10_frame_effect (fun _ _ => (10 : Rat)) 2 true
    { g := [0, 0, 1, 1], y_true := [0, 1, 0, 1], y_pred := [0, 0, 0, 0],
      metadata := [], features := some [[1], [2], [3], [5]],
      unlabeled_features := some [[0], [4]], unlabeled_g := some [7, 7],
      penalty := none }
    [[1], [2], [3], [5]] rfl (fun _ _ => by simp)

end Wilds
